import Mathlib

/-!
go-zulip: the resilient call and the event poller.

A shallow embedding of `main.go` (`api`, `Register`, `tryToGetEvents`,
`GetEvents`) and of `message.go` (`NewPrivateMessage`, `NewStreamMessage`,
`Reply`, `SendMessage`).

The network and the handler are the program's environment.  Every run of the
program sees the transport answer its successive invocations with some sequence
of bodies, so the transport is a stream of bodies indexed by the number of
invocations made so far.  What the program does to the outside world is kept
as a chronological list of actions (transport invocations, sleeps, handler
calls).  Log statements are not modelled.  A Go `[]string` keeps the
difference between the nil slice and an empty one, which `json.Marshal` encodes
differently, and the elements of a batch of events are pointers, of which a
nil one makes the loop over the batch panic.
-/

namespace GoZulip

/-- Go `[]byte`: the raw body of a response. -/
abbrev Bytes := List Nat

/-- Go `url.Values` as used here: keys set with `Set`, one value per key. -/
abbrev Values := List (String × String)

/-- `url.Values.Set`: replaces the value stored under `key`. -/
def Values.Set (v : Values) (key value : String) : Values :=
  v.filter (fun kv => kv.1 != key) ++ [(key, value)]

/-- Modelled from the spec: the declaration of `BaseResponse` is absent from the
sources; `api` reads its fields `Result` and `Msg` (the envelope's result status
and message string). -/
structure BaseResponse where
  Result : String
  Msg : String
  deriving DecidableEq, Repr

/-- Modelled from the spec: the declaration of `EventResponse` is absent from the
sources; `GetEvents` reads its fields `ID` (compared with an `int64`) and `Type`
(here `Type_`, `Type` being reserved).  An event is a record with an integer
identifier and a kind. -/
structure EventResponse where
  ID : Int
  Type_ : String
  deriving DecidableEq, Repr

/-- Modelled from the spec: the declaration of `EventsResponse` is absent from the
sources; `GetEvents` reads its fields `Result` and `Events`, the ordered array of
event objects.  `GetEvents` passes each element of `Events` to
`HandleEvent(*EventResponse)`, so the elements are pointers: `some e` points to
the event `e`, and `none` is the nil pointer that a JSON `null` in the array
decodes to. -/
structure EventsResponse where
  Result : String
  Events : List (Option EventResponse)
  deriving DecidableEq, Repr

/-- What the program does to the outside world. -/
inductive Action where
  /-- One invocation of `tryToCallApi(url, method, params)`. -/
  | call (url method : String) (params : Values)
  /-- One `time.Sleep(time.Second)`. -/
  | sleep
  /-- One `handler.HandleEvent(event)` together with the value it returned. -/
  | handle (event : EventResponse) (result : Bool)
  deriving DecidableEq, Repr

/-- The environment of a run: the bodies the transport returns and the two JSON
decoders (`json.Unmarshal` into a `BaseResponse` and into an `EventsResponse`),
each returning the decoded value or the decoding error. -/
structure Env where
  /-- The body returned by `tryToCallApi` at its invocation number `n` (counted from 0). -/
  tryToCallApi : Nat → Bytes
  /-- `json.Unmarshal(bytes, &res)` with `res` a `BaseResponse`. -/
  unmarshalBase : Bytes → Except String BaseResponse
  /-- `json.Unmarshal(bytes, &res)` with `res` an `EventsResponse`. -/
  unmarshalEvents : Bytes → Except String EventsResponse

/-- `strings.HasPrefix`. -/
def HasPrefix (s pre : String) : Bool :=
  pre.data.isPrefixOf s.data

/-- The marker `api` looks for at the start of `res.Msg`. -/
def rateLimitMarker : String := "API usage exceeded rate limit"

/-- The named results of `api` together with the number of transport invocations
made so far and the actions the call performed. -/
structure ApiResult where
  bytes : Bytes
  err : Option String
  n : Nat
  trace : List Action
  deriving DecidableEq, Repr

/-- Puts the actions `pre` before the actions of `r`. -/
def ApiResult.after (pre : List Action) (r : ApiResult) : ApiResult :=
  { r with trace := pre ++ r.trace }

/-- The loop `for i := 0; i <= 5; i++` of `api`, entered at the test of its
condition with loop variable `i`, named results `bytes`, `err`, and `n` transport
invocations made before.  `fuel` bounds the number of condition tests; `api`
supplies 7, which the loop never uses up. -/
def apiLoop (env : Env) (url method : String) (params : Values) :
    Nat → Nat → Bytes → Option String → Nat → ApiResult
  | 0, _, bytes, err, n => ⟨bytes, err, n, []⟩
  | fuel + 1, i, bytes, err, n =>
    if i ≤ 5 then
      let bytes := env.tryToCallApi n
      match env.unmarshalBase bytes with
      | .error e =>
        (apiLoop env url method params fuel (i + 1) bytes (some e) (n + 1)).after
          [.call url method params, .sleep]
      | .ok res =>
        if res.Result = "error" ∧ HasPrefix res.Msg rateLimitMarker = true then
          (apiLoop env url method params fuel (i + 1) bytes none (n + 1)).after
            [.call url method params, .sleep]
        else
          ⟨bytes, none, n + 1, [.call url method params]⟩
    else
      ⟨bytes, err, n, []⟩

/-- The client: credentials, base URL and the queue identifier stored by `Register`. -/
structure Zulip where
  authLogin : String
  authPass : String
  baseUrl : String
  queueID : String
  Debug : Bool
  deriving DecidableEq, Repr

/-- `Zulip.api`, started when the transport has been invoked `n` times.  The
named results start at their zero values. -/
def Zulip.api (_z : Zulip) (env : Env) (url method : String) (params : Values) (n : Nat) :
    ApiResult :=
  apiLoop env url method params 7 0 [] none n

/-- `strconv.FormatInt(i, 10)`. -/
def FormatInt : Int → String
  | .ofNat m => Nat.repr m
  | .negSucc m => "-" ++ Nat.repr (m + 1)

/-- What `tryToGetEvents` hands back: the returned bytes, or the value it
panicked with, and the transport invocations and actions made on the way. -/
structure Fetch where
  res : Except String Bytes
  n : Nat
  trace : List Action

/-- `Zulip.tryToGetEvents`. -/
def Zulip.tryToGetEvents (z : Zulip) (env : Env) (last_event_id : String) (n : Nat) : Fetch :=
  let v : Values := []
  let v := v.Set "queue_id" z.queueID
  let v := v.Set "last_event_id" last_event_id
  let r := z.api env "api/v1/events" "GET" v n
  match r.err with
  | some e => ⟨.error e, r.n, r.trace⟩
  | none => ⟨.ok r.bytes, r.n, r.trace⟩

/-- The interface `EventListener`: `HandleEvent` may change the listener's own
state `σ` and returns whether polling goes on. -/
structure EventListener (σ : Type) where
  HandleEvent : σ → EventResponse → Bool × σ

/-- How the loop over one batch of events is left. -/
inductive Exit where
  /-- The loop ran to the end of the batch. -/
  | finished
  /-- The loop was left by `return` (the handler returned false). -/
  | returned
  /-- The loop read a field of a nil element: a run-time panic. -/
  | panicked (e : String)
  deriving DecidableEq, Repr

/-- The value of the run-time panic raised by reading `event.ID` when `event`
is nil. -/
def nilDereference : String :=
  "runtime error: invalid memory address or nil pointer dereference"

/-- The result of the loop over one batch of events. -/
structure Batch (σ : Type) where
  exit : Exit
  last_event_id : Int
  handler : σ
  trace : List Action

/-- Puts the actions `pre` before the actions of `r`. -/
def Batch.after {σ : Type} (pre : List Action) (r : Batch σ) : Batch σ :=
  { r with trace := pre ++ r.trace }

/-- The loop `for _, event := range events` of `GetEvents`.  Its first statement
reads `event.ID`, which panics when `event` is nil. -/
def eventLoop {σ : Type} (handler : EventListener σ) :
    List (Option EventResponse) → Int → σ → Batch σ
  | [], last_event_id, s => ⟨.finished, last_event_id, s, []⟩
  | none :: _, last_event_id, s => ⟨.panicked nilDereference, last_event_id, s, []⟩
  | some event :: rest, last_event_id, s =>
    let last_event_id := if event.ID > last_event_id then event.ID else last_event_id
    if event.Type_ = "heartbeat" then
      eventLoop handler rest last_event_id s
    else
      let result := (handler.HandleEvent s event).1
      let s := (handler.HandleEvent s event).2
      if !result then
        ⟨.returned, last_event_id, s, [.handle event result]⟩
      else
        (eventLoop handler rest last_event_id s).after [.handle event result]

/-- The state of `GetEvents` between two iterations of its outer loop. -/
structure Poller (σ : Type) where
  last_event_id : Int
  handler : σ
  /-- Transport invocations made so far. -/
  n : Nat
  /-- Actions performed so far, oldest first. -/
  trace : List Action

/-- How one iteration of the outer loop of `GetEvents` ends. -/
inductive Step (σ : Type) where
  /-- The loop goes to its next iteration. -/
  | next (st : Poller σ)
  /-- `GetEvents` returned. -/
  | returned (st : Poller σ)
  /-- A `panic(err)`, or the run-time panic of the loop over the batch. -/
  | panicked (e : String) (st : Poller σ)

/-- One iteration of the outer `for` of `GetEvents`. -/
def Zulip.iteration {σ : Type} (z : Zulip) (env : Env) (handler : EventListener σ)
    (st : Poller σ) : Step σ :=
  let f := z.tryToGetEvents env (FormatInt st.last_event_id) st.n
  let st : Poller σ := { st with n := f.n, trace := st.trace ++ f.trace }
  match f.res with
  | .error e => .panicked e st
  | .ok bytes =>
    match env.unmarshalEvents bytes with
    | .error e => .panicked e st
    | .ok res =>
      if res.Result ≠ "success" then
        .next st
      else
        let r := eventLoop handler res.Events st.last_event_id st.handler
        let st : Poller σ :=
          { st with last_event_id := r.last_event_id, handler := r.handler,
                    trace := st.trace ++ r.trace }
        match r.exit with
        | .finished => .next st
        | .returned => .returned st
        | .panicked e => .panicked e st

/-- How a run of `GetEvents` stands after a number of iterations. -/
inductive Outcome where
  /-- `GetEvents` returned. -/
  | returned
  /-- `GetEvents` panicked with this value. -/
  | panicked (e : String)
  /-- `GetEvents` is still in its loop, about to poll again. -/
  | polling
  deriving DecidableEq, Repr

/-- A run of `GetEvents`: where it stands and its state there. -/
structure Run (σ : Type) where
  outcome : Outcome
  state : Poller σ

/-- The outer `for` of `GetEvents` from state `st`, followed for at most `fuel`
iterations. -/
def Zulip.GetEventsLoop {σ : Type} (z : Zulip) (env : Env) (handler : EventListener σ) :
    Nat → Poller σ → Run σ
  | 0, st => ⟨.polling, st⟩
  | fuel + 1, st =>
    match z.iteration env handler st with
    | .next st => Zulip.GetEventsLoop z env handler fuel st
    | .returned st => ⟨.returned, st⟩
    | .panicked e st => ⟨.panicked e, st⟩

/-- `Zulip.GetEvents`, followed for at most `fuel` iterations of its loop, with
the handler in state `s` and `n` transport invocations made before. -/
def Zulip.GetEvents {σ : Type} (z : Zulip) (env : Env) (handler : EventListener σ)
    (fuel : Nat) (s : σ) (n : Nat) : Run σ :=
  z.GetEventsLoop env handler fuel ⟨-1, s, n, []⟩

/-! ## Reading a trace -/

/-- The number of transport invocations in a trace. -/
def invocations (t : List Action) : Nat :=
  t.countP (fun a => match a with | .call _ _ _ => true | _ => false)

/-- The number of sleeps in a trace. -/
def sleeps (t : List Action) : Nat :=
  t.countP (fun a => match a with | .sleep => true | _ => false)

/-- The events passed to `HandleEvent` in a trace, in order. -/
def dispatched (t : List Action) : List EventResponse :=
  t.filterMap (fun a => match a with | .handle e _ => some e | _ => none)

/-! ## The two kinds of response that `api` retries -/

/-- The body fails to parse as a response envelope. -/
def Env.malformed (env : Env) (b : Bytes) : Bool :=
  match env.unmarshalBase b with
  | .error _ => true
  | .ok _ => false

/-- The body parses as a rate-limit error: result `"error"` and a message that
begins with the marker. -/
def Env.rateLimited (env : Env) (b : Bytes) : Bool :=
  match env.unmarshalBase b with
  | .error _ => false
  | .ok res => res.Result = "error" && HasPrefix res.Msg rateLimitMarker

/-- The body is malformed or a rate-limit error. -/
def Env.transient (env : Env) (b : Bytes) : Bool :=
  env.malformed b || env.rateLimited b

/-- The error `json.Unmarshal` into a `BaseResponse` returns for the body, `none` for nil. -/
def Env.parseError (env : Env) (b : Bytes) : Option String :=
  match env.unmarshalBase b with
  | .error e => some e
  | .ok _ => none

/-- The actions of `m` attempts each followed by a sleep. -/
def retries (url method : String) (params : Values) (m : Nat) : List Action :=
  (List.replicate m [Action.call url method params, Action.sleep]).flatten

/-! ## Reading a run of the poller -/

/-- The events of a batch that are not keep-alive events, in order. -/
def regular (events : List EventResponse) : List EventResponse :=
  events.filter (fun e => decide (e.Type_ ≠ "heartbeat"))

/-- The events of a batch that stand before its first nil element, in order: all
its events when it holds no nil element. -/
def present : List (Option EventResponse) → List EventResponse
  | [] => []
  | none :: _ => []
  | some e :: rest => e :: present rest

/-- What the handler, started in state `s`, answers to the events of a list
passed to it one after the other. -/
def answers {σ : Type} (handler : EventListener σ) : σ → List EventResponse → List Bool
  | _, [] => []
  | s, e :: es => (handler.HandleEvent s e).1 :: answers handler (handler.HandleEvent s e).2 es

/-- The largest of `c` and the identifiers of the events. -/
def maxID (c : Int) (events : List EventResponse) : Int :=
  events.foldl (fun m e => max m e.ID) c

/-- The state of the poller after the poll made from state `st` and the loop
over the batch `events` that it brought. -/
def Zulip.afterBatch {σ : Type} (z : Zulip) (env : Env) (handler : EventListener σ)
    (st : Poller σ) (events : List (Option EventResponse)) : Poller σ :=
  ⟨(eventLoop handler events st.last_event_id st.handler).last_event_id,
    (eventLoop handler events st.last_event_id st.handler).handler,
    (z.tryToGetEvents env (FormatInt st.last_event_id) st.n).n,
    st.trace ++ (z.tryToGetEvents env (FormatInt st.last_event_id) st.n).trace
      ++ (eventLoop handler events st.last_event_id st.handler).trace⟩

/-- The elements of the success batch that the poll made from state `st`
receives; empty when that poll ends in a panic or in a result other than
`"success"`. -/
def Zulip.polled {σ : Type} (z : Zulip) (env : Env) (st : Poller σ) :
    List (Option EventResponse) :=
  match (z.tryToGetEvents env (FormatInt st.last_event_id) st.n).res with
  | .error _ => []
  | .ok bytes =>
    match env.unmarshalEvents bytes with
    | .error _ => []
    | .ok res => if res.Result = "success" then res.Events else []

/-- The elements of all batches received in the first `fuel` iterations of the
loop of `GetEvents` from state `st`, in order of arrival. -/
def Zulip.seen {σ : Type} (z : Zulip) (env : Env) (handler : EventListener σ) :
    Nat → Poller σ → List (Option EventResponse)
  | 0, _ => []
  | fuel + 1, st =>
    z.polled env st ++
      match z.iteration env handler st with
      | .next st => Zulip.seen z env handler fuel st
      | .returned _ => []
      | .panicked _ _ => []

/-! ## Sample environment -/

/-- A sample decoder into `BaseResponse`: body `[1]` is a success envelope, `[2]`
a rate-limit error, `[3]` another error, `[4]` a non-error result whose message
starts with the marker, `[5, ..]` a success envelope carrying events, `[6, ..]`
an error envelope carrying events; other bodies do not parse. -/
def sampleBase : Bytes → Except String BaseResponse
  | [1] => .ok ⟨"success", ""⟩
  | [2] => .ok ⟨"error", "API usage exceeded rate limit for this user"⟩
  | [3] => .ok ⟨"error", "Invalid queue"⟩
  | [4] => .ok ⟨"warning", "API usage exceeded rate limit"⟩
  | 5 :: _ => .ok ⟨"success", ""⟩
  | 6 :: _ => .ok ⟨"error", "Invalid queue"⟩
  | _ => .error "unexpected end of JSON input"

/-- The elements of a sample body: after the tag every pair of numbers is an
element, an identifier and 0 for a heartbeat, 1 for a message or 2 for a JSON
`null` in place of an event. -/
def sampleEventList : List Nat → List (Option EventResponse)
  | id :: k :: rest =>
    (if k = 2 then none
      else some ⟨(id : Int), if k = 0 then "heartbeat" else "message"⟩) :: sampleEventList rest
  | _ => []

/-- A sample decoder into `EventsResponse`, matching `sampleBase`. -/
def sampleEvents : Bytes → Except String EventsResponse
  | [1] => .ok ⟨"success", []⟩
  | [2] => .ok ⟨"error", []⟩
  | [3] => .ok ⟨"error", []⟩
  | [4] => .ok ⟨"warning", []⟩
  | 5 :: rest => .ok ⟨"success", sampleEventList rest⟩
  | 6 :: rest => .ok ⟨"error", sampleEventList rest⟩
  | _ => .error "unexpected end of JSON input"

/-- A sample environment: the transport answers with the bodies of `script` in
turn and with an empty body afterwards. -/
def sampleEnv (script : List Bytes) : Env :=
  ⟨fun n => script.getD n [], sampleBase, sampleEvents⟩

/-- A sample client. -/
def sampleZulip : Zulip := ⟨"bot@example.com", "key", "https://chat.example.com", "q1", false⟩

/-- A listener that counts its calls and answers false on call number `k`. -/
def stopAt (k : Nat) : EventListener Nat :=
  ⟨fun calls _ => (decide (calls + 1 ≠ k), calls + 1)⟩

/-- A sample body: a success envelope with the events 3, 7 (a heartbeat), 5, 6
and 9, in this order. -/
def sampleBatch : Bytes := [5, 3, 1, 7, 0, 5, 1, 6, 1, 9, 1]

/-- The state in which `GetEvents` enters its loop when nothing happened before. -/
def start : Poller Nat := ⟨-1, 0, 0, []⟩

/-! ## Registration -/

/-- Go `[]string`: `none` is the nil slice, `some xs` a slice holding `xs`. -/
abbrev Strings := Option (List String)

/-- Modelled from the spec: the declaration of `RegisterResponse` is absent from
the sources; `Register` reads its field `QueueID`, the `queue_id` string of the
response. -/
structure RegisterResponse where
  QueueID : String
  deriving DecidableEq, Repr

/-- The part of `encoding/json` that `Register` and `SendMessage` use. -/
structure Json where
  /-- The JSON encoding of one string, quotes included. -/
  quote : String → String
  /-- `json.Unmarshal(bytes, &res)` with `res` a `RegisterResponse`. -/
  unmarshalRegister : Bytes → Except String RegisterResponse

/-- `json.Marshal` of a `[]string`, as a string: a nil slice encodes as `null`,
any other slice as the array of its encoded elements, without blanks. -/
def Json.Marshal (json : Json) : Strings → String
  | none => "null"
  | some xs => "[" ++ ",".intercalate (xs.map json.quote) ++ "]"

/-- What `Register` hands back: the returned queue identifier or the value it
panicked with, the client afterwards, and the transport invocations and actions
made on the way. -/
structure Registered where
  res : Except String String
  z : Zulip
  n : Nat
  trace : List Action
  deriving Repr

/-- `Zulip.Register`. -/
def Zulip.Register (z : Zulip) (env : Env) (json : Json) (event_types : Strings) (n : Nat) :
    Registered :=
  let v : Values := []
  let json_types := json.Marshal event_types
  let v := v.Set "event_types" json_types
  let r := z.api env "api/v1/register" "POST" v n
  match r.err with
  | some err => ⟨.error err, z, r.n, r.trace⟩
  | none =>
    match json.unmarshalRegister r.bytes with
    | .error err => ⟨.error err, z, r.n, r.trace⟩
    | .ok res => ⟨.ok res.QueueID, { z with queueID := res.QueueID }, r.n, r.trace⟩

/-! ## Messages (`message.go`) -/

/-- The constant `privateMessage`. -/
def privateMessage : String := "private"

/-- The constant `streamMessage`. -/
def streamMessage : String := "stream"

/-- The struct `Message` (its field `Type` is `Type_` here). -/
structure Message where
  Type_ : String
  Content : String
  StreamName : String
  TopicName : String
  Usernames : Strings
  deriving DecidableEq, Repr

/-- `NewPrivateMessage`: the fields not named are at their zero values. -/
def NewPrivateMessage (recipients : Strings) : Message :=
  { Type_ := privateMessage, Content := "", StreamName := "", TopicName := "",
    Usernames := recipients }

/-- `NewStreamMessage`: the fields not named are at their zero values. -/
def NewStreamMessage (stream topic : String) : Message :=
  { Type_ := streamMessage, Content := "", StreamName := stream, TopicName := topic,
    Usernames := none }

/-- Modelled from the spec: the declaration of `MessageResponse` and of its
methods `IsPrivate`, `GetRecipients`, `GetStreamName` and `GetTopicName` is
absent from the sources; an inbound message exposes whether it is direct, its
recipients, its channel name and its topic name, kept here as what the four
methods return. -/
structure MessageResponse where
  IsPrivate : Bool
  GetRecipients : Strings
  GetStreamName : String
  GetTopicName : String
  deriving DecidableEq, Repr

/-- `Reply`. -/
def Reply (msg : MessageResponse) : Message :=
  if msg.IsPrivate then
    NewPrivateMessage msg.GetRecipients
  else
    NewStreamMessage msg.GetStreamName msg.GetTopicName

/-- What `SendMessage` leaves behind: the transport invocations and actions made. -/
structure Sent where
  n : Nat
  trace : List Action
  deriving DecidableEq, Repr

/-- `Zulip.SendMessage`: the results of `api` are dropped. -/
def Zulip.SendMessage (z : Zulip) (env : Env) (json : Json) (msg : Message) (n : Nat) : Sent :=
  let v : Values := []
  let v := v.Set "type" msg.Type_
  let v := v.Set "content" msg.Content
  let v :=
    if msg.Type_ = privateMessage then
      let recipients := json.Marshal msg.Usernames
      v.Set "to" recipients
    else if msg.Type_ = streamMessage then
      let v := v.Set "to" msg.StreamName
      v.Set "subject" msg.TopicName
    else
      v
  let r := z.api env "api/v1/messages" "POST" v n
  ⟨r.n, r.trace⟩

/-- The transport invocations of a trace, in order: path, method and parameters. -/
def requests (t : List Action) : List (String × String × Values) :=
  t.filterMap (fun a => match a with | .call url method params => some (url, method, params) | _ => none)

/-- `url.Values.Get`: the value stored under `key`, empty when there is none. -/
def Values.Get (v : Values) (key : String) : String :=
  (v.lookup key).getD ""

/-- Whether a value is stored under `key`. -/
def Values.Has (v : Values) (key : String) : Bool :=
  (v.lookup key).isSome

/-- The elements of a `[]string`; a nil slice has none. -/
def Strings.elems : Strings → List String
  | none => []
  | some xs => xs

/-- The compact JSON array of the strings `xs`, in order: the encoded strings
between brackets, separated by commas. -/
def jsonArray (json : Json) (xs : List String) : String :=
  "[" ++ ",".intercalate (xs.map json.quote) ++ "]"

/-! ## Sample codec -/

/-- A sample encoder of one string: the string between double quotes, which is
its JSON encoding when it holds nothing that JSON escapes. -/
def sampleQuote (s : String) : String :=
  String.singleton (Char.ofNat 34) ++ s ++ String.singleton (Char.ofNat 34)

/-- A sample decoder into `RegisterResponse`, matching `sampleBase`: the success
envelope `[1]` carries a queue identifier, the envelopes `[2]`, `[3]`, `[4]` and
`[5, ..]` carry none, and the error envelope `[6, ..]`, whose `queue_id` is not
a string, does not decode. -/
def sampleRegister : Bytes → Except String RegisterResponse
  | [1] => .ok ⟨"1517975029:0"⟩
  | [2] => .ok ⟨""⟩
  | [3] => .ok ⟨""⟩
  | [4] => .ok ⟨""⟩
  | 5 :: _ => .ok ⟨""⟩
  | 6 :: _ => .error "json: cannot unmarshal number into Go struct field of type string"
  | _ => .error "unexpected end of JSON input"

/-- A sample codec. -/
def sampleJson : Json := ⟨sampleQuote, sampleRegister⟩

end GoZulip


namespace GoZulip

/-! ## The loop of `api` -/

theorem ApiResult.after_after (a b : List Action) (r : ApiResult) :
    (r.after a).after b = r.after (b ++ a) := by
  simp [ApiResult.after]

theorem ApiResult.after_nil (r : ApiResult) : r.after [] = r := by
  simp [ApiResult.after]

theorem retries_succ (url method : String) (params : Values) (m : Nat) :
    retries url method params (m + 1)
      = [Action.call url method params, Action.sleep] ++ retries url method params m := by
  simp [retries, List.replicate_succ]

theorem invocations_retries (url method : String) (params : Values) (m : Nat) :
    invocations (retries url method params m) = m := by
  induction m with
  | zero => simp [retries, invocations]
  | succ m ih =>
    rw [retries_succ]
    simp only [invocations] at ih ⊢
    simp [List.countP_cons, ih]

theorem sleeps_retries (url method : String) (params : Values) (m : Nat) :
    sleeps (retries url method params m) = m := by
  induction m with
  | zero => simp [retries, sleeps]
  | succ m ih =>
    rw [retries_succ]
    simp only [sleeps] at ih ⊢
    simp [List.countP_cons, ih]

/-- One pass of the loop on a transient response: the attempt, a sleep, and the
loop goes on with the next value of `i`. -/
theorem apiLoop_transient_step (env : Env) (url method : String) (params : Values)
    (fuel i : Nat) (bytes : Bytes) (err : Option String) (n : Nat)
    (hi : i ≤ 5) (ht : env.transient (env.tryToCallApi n) = true) :
    apiLoop env url method params (fuel + 1) i bytes err n
      = (apiLoop env url method params fuel (i + 1) (env.tryToCallApi n)
          (env.parseError (env.tryToCallApi n)) (n + 1)).after
          [Action.call url method params, Action.sleep] := by
  simp only [apiLoop, hi, if_true]
  simp only [Env.transient, Env.malformed, Env.rateLimited, Env.parseError] at ht ⊢
  cases h : env.unmarshalBase (env.tryToCallApi n) with
  | error e => simp
  | ok res =>
    simp only [h] at ht
    simp at ht
    simp [ht]

/-- One pass of the loop on a response that is not transient: the attempt, and
`api` returns its bytes with a nil error. -/
theorem apiLoop_final_step (env : Env) (url method : String) (params : Values)
    (fuel i : Nat) (bytes : Bytes) (err : Option String) (n : Nat)
    (hi : i ≤ 5) (ht : env.transient (env.tryToCallApi n) = false) :
    apiLoop env url method params (fuel + 1) i bytes err n
      = ⟨env.tryToCallApi n, none, n + 1, [Action.call url method params]⟩ := by
  simp only [apiLoop, hi, if_true]
  simp only [Env.transient, Env.malformed, Env.rateLimited] at ht
  cases h : env.unmarshalBase (env.tryToCallApi n) with
  | error e => simp [h] at ht
  | ok res =>
    simp only [h] at ht
    simp at ht
    simp
    intro h1 h2
    exact absurd h2 (by simpa using ht h1)

/-- The loop left by its condition. -/
theorem apiLoop_exit (env : Env) (url method : String) (params : Values)
    (fuel i : Nat) (bytes : Bytes) (err : Option String) (n : Nat) (hi : 5 < i) :
    apiLoop env url method params (fuel + 1) i bytes err n = ⟨bytes, err, n, []⟩ := by
  have : ¬ i ≤ 5 := by omega
  simp [apiLoop, this]

/-- A run of `m + 1` transient responses: `m + 1` attempts each followed by a
sleep, and the loop goes on holding the last body and its parse error. -/
theorem apiLoop_transient_run (env : Env) (url method : String) (params : Values) (m : Nat) :
    ∀ (fuel i : Nat) (bytes : Bytes) (err : Option String) (n : Nat),
      i + (m + 1) ≤ 6 →
      (∀ j, j < m + 1 → env.transient (env.tryToCallApi (n + j)) = true) →
      apiLoop env url method params (fuel + (m + 1)) i bytes err n
        = (apiLoop env url method params fuel (i + (m + 1))
            (env.tryToCallApi (n + m)) (env.parseError (env.tryToCallApi (n + m)))
            (n + (m + 1))).after (retries url method params (m + 1)) := by
  induction m with
  | zero =>
    intro fuel i bytes err n hi ht
    have h0 := ht 0 (by omega)
    simp only [Nat.add_zero] at h0
    rw [apiLoop_transient_step env url method params fuel i bytes err n (by omega) h0]
    simp [retries]
  | succ m ih =>
    intro fuel i bytes err n hi ht
    have h0 := ht 0 (by omega)
    simp only [Nat.add_zero] at h0
    rw [show fuel + (m + 1 + 1) = (fuel + (m + 1)) + 1 by omega]
    rw [apiLoop_transient_step env url method params _ i bytes err n (by omega) h0]
    rw [ih fuel (i + 1) _ _ (n + 1) (by omega)
      (fun j hj => by have := ht (j + 1) (by omega); rwa [show n + (j + 1) = n + 1 + j by omega] at this)]
    rw [ApiResult.after_after, ← retries_succ]
    rw [show i + 1 + (m + 1) = i + (m + 1 + 1) by omega,
      show n + 1 + m = n + (m + 1) by omega,
      show n + 1 + (m + 1) = n + (m + 1 + 1) by omega]

/-- Six transient responses in a row: `api` makes six attempts, sleeps after
each, and returns the sixth body with its parse error. -/
theorem api_exhausted (z : Zulip) (env : Env) (url method : String) (params : Values) (n : Nat)
    (ht : ∀ j, j < 6 → env.transient (env.tryToCallApi (n + j)) = true) :
    z.api env url method params n
      = ⟨env.tryToCallApi (n + 5), env.parseError (env.tryToCallApi (n + 5)), n + 6,
          retries url method params 6⟩ := by
  unfold Zulip.api
  rw [show (7 : Nat) = 1 + (5 + 1) by rfl]
  rw [apiLoop_transient_run env url method params 5 1 0 [] none n (by omega) ht]
  rw [apiLoop_exit env url method params 0 _ _ _ _ (by omega)]
  simp [ApiResult.after]

/-- After `k ≤ 5` transient responses a response that is not transient: `api`
makes `k + 1` attempts, sleeps after the first `k`, and returns the last body
with a nil error. -/
theorem api_returns_after (z : Zulip) (env : Env) (url method : String) (params : Values)
    (n k : Nat) (hk : k ≤ 5)
    (ht : ∀ j, j < k → env.transient (env.tryToCallApi (n + j)) = true)
    (hf : env.transient (env.tryToCallApi (n + k)) = false) :
    z.api env url method params n
      = ⟨env.tryToCallApi (n + k), none, n + k + 1,
          retries url method params k ++ [Action.call url method params]⟩ := by
  unfold Zulip.api
  cases k with
  | zero =>
    rw [apiLoop_final_step env url method params 6 0 [] none n (by omega) (by simpa using hf)]
    simp [retries]
  | succ m =>
    obtain ⟨f, hf6⟩ : ∃ f, 7 = (f + 1) + (m + 1) := ⟨5 - m, by omega⟩
    rw [hf6]
    rw [apiLoop_transient_run env url method params m (f + 1) 0 [] none n (by omega) ht]
    rw [apiLoop_final_step env url method params _ _ _ _ _ (by omega) hf]
    simp [ApiResult.after]

/-- The fuel `api` supplies is never what ends the loop: more fuel changes nothing. -/
theorem apiLoop_fuel (env : Env) (url method : String) (params : Values) :
    ∀ (fuel i : Nat) (bytes : Bytes) (err : Option String) (n : Nat), 6 < fuel + i →
      apiLoop env url method params (fuel + 1) i bytes err n
        = apiLoop env url method params fuel i bytes err n := by
  intro fuel
  induction fuel with
  | zero =>
    intro i bytes err n h
    rw [apiLoop_exit env url method params 0 i bytes err n (by omega)]
    rfl
  | succ fuel ih =>
    intro i bytes err n h
    by_cases hi : i ≤ 5
    · cases ht : env.transient (env.tryToCallApi n) with
      | false =>
        rw [apiLoop_final_step env url method params _ i bytes err n hi ht,
          apiLoop_final_step env url method params _ i bytes err n hi ht]
      | true =>
        rw [apiLoop_transient_step env url method params _ i bytes err n hi ht,
          apiLoop_transient_step env url method params _ i bytes err n hi ht,
          ih (i + 1) _ _ (n + 1) (by omega)]
    · rw [apiLoop_exit env url method params _ i bytes err n (by omega),
        apiLoop_exit env url method params _ i bytes err n (by omega)]

/-- A loop entered with `i ≤ 5` makes at least one attempt. -/
theorem apiLoop_one_attempt (env : Env) (url method : String) (params : Values)
    (fuel i : Nat) (bytes : Bytes) (err : Option String) (n : Nat) (hi : i ≤ 5) :
    1 ≤ invocations (apiLoop env url method params (fuel + 1) i bytes err n).trace := by
  cases ht : env.transient (env.tryToCallApi n) with
  | false =>
    rw [apiLoop_final_step env url method params fuel i bytes err n hi ht]
    simp [invocations]
  | true =>
    rw [apiLoop_transient_step env url method params fuel i bytes err n hi ht]
    simp [invocations, ApiResult.after, List.countP_cons]

/-- Within the budget, attempt `j + 1` follows attempt `j` exactly when the
response to attempt `j` is transient. -/
theorem apiLoop_next_attempt (env : Env) (url method : String) (params : Values) :
    ∀ (fuel i : Nat) (bytes : Bytes) (err : Option String) (n j : Nat),
      6 < fuel + i → i + j < 5 →
      (j + 1 < invocations (apiLoop env url method params fuel i bytes err n).trace
        ↔ j < invocations (apiLoop env url method params fuel i bytes err n).trace
          ∧ env.transient (env.tryToCallApi (n + j)) = true) := by
  intro fuel
  induction fuel with
  | zero => intro i bytes err n j h1 h2; omega
  | succ fuel ih =>
    intro i bytes err n j h1 h2
    cases ht : env.transient (env.tryToCallApi n) with
    | false =>
      rw [apiLoop_final_step env url method params fuel i bytes err n (by omega) ht]
      have hc : invocations [Action.call url method params] = 1 := by simp [invocations]
      rw [hc]
      constructor
      · intro h; omega
      · rintro ⟨h, h3⟩
        have : j = 0 := by omega
        subst this
        simp [ht] at h3
    | true =>
      rw [apiLoop_transient_step env url method params fuel i bytes err n (by omega) ht]
      have hc : ∀ r : ApiResult,
          invocations (r.after [Action.call url method params, Action.sleep]).trace
            = invocations r.trace + 1 := by
        intro r; simp [invocations, ApiResult.after, List.countP_cons]
      rw [hc]
      cases j with
      | zero =>
        obtain ⟨f, rfl⟩ : ∃ f, fuel = f + 1 := ⟨fuel - 1, by omega⟩
        have := apiLoop_one_attempt env url method params f (i + 1) (env.tryToCallApi n)
          (env.parseError (env.tryToCallApi n)) (n + 1) (by omega)
        simp only [Nat.add_zero, ht, and_true]
        omega
      | succ j =>
        have := ih (i + 1) (env.tryToCallApi n) (env.parseError (env.tryToCallApi n))
          (n + 1) j (by omega) (by omega)
        rw [show n + (j + 1) = n + 1 + j by omega]
        constructor
        · intro h
          have h3 := this.1 (by omega)
          exact ⟨by omega, h3.2⟩
        · rintro ⟨h, h3⟩
          have := this.2 ⟨by omega, h3⟩
          omega

/-- Among the responses from `n` on, either the first `m` are all transient or
there is a first one that is not. -/
theorem transient_run_or_first (env : Env) (n m : Nat) :
    (∀ j, j < m → env.transient (env.tryToCallApi (n + j)) = true)
      ∨ ∃ k, k < m ∧ (∀ j, j < k → env.transient (env.tryToCallApi (n + j)) = true)
          ∧ env.transient (env.tryToCallApi (n + k)) = false := by
  induction m with
  | zero => left; intro j hj; omega
  | succ m ih =>
    rcases ih with h | ⟨k, hk, h1, h2⟩
    · cases ht : env.transient (env.tryToCallApi (n + m)) with
      | false => right; exact ⟨m, by omega, h, ht⟩
      | true =>
        left
        intro j hj
        rcases Nat.lt_succ_iff_lt_or_eq.mp hj with h3 | h3
        · exact h j h3
        · rw [h3]; exact ht
    · right; exact ⟨k, by omega, h1, h2⟩

/-- The two ways `api` ends: on the first response that is not transient, or
after six transient ones. -/
theorem api_cases (z : Zulip) (env : Env) (url method : String) (params : Values) (n : Nat) :
    (∃ k, k ≤ 5 ∧ (∀ j, j < k → env.transient (env.tryToCallApi (n + j)) = true)
        ∧ env.transient (env.tryToCallApi (n + k)) = false
        ∧ z.api env url method params n
            = ⟨env.tryToCallApi (n + k), none, n + k + 1,
                retries url method params k ++ [Action.call url method params]⟩)
      ∨ ((∀ j, j < 6 → env.transient (env.tryToCallApi (n + j)) = true)
        ∧ z.api env url method params n
            = ⟨env.tryToCallApi (n + 5), env.parseError (env.tryToCallApi (n + 5)), n + 6,
                retries url method params 6⟩) := by
  rcases transient_run_or_first env n 6 with h | ⟨k, hk, h1, h2⟩
  · right; exact ⟨h, api_exhausted z env url method params n h⟩
  · left
    exact ⟨k, by omega, h1, h2, api_returns_after z env url method params n k (by omega) h1 h2⟩

theorem length_retries (url method : String) (params : Values) (m : Nat) :
    (retries url method params m).length = 2 * m := by
  induction m with
  | zero => simp [retries]
  | succ m ih => rw [retries_succ]; simp [ih]; omega

/-- In a run of retries the action after attempt `j` is a sleep. -/
theorem retries_sleep_after (url method : String) (params : Values) (t : List Action) :
    ∀ (m j : Nat), j < m →
      (retries url method params m ++ t)[2 * j + 1]? = some Action.sleep := by
  intro m
  induction m with
  | zero => intro j hj; omega
  | succ m ih =>
    intro j hj
    rw [retries_succ]
    cases j with
    | zero => simp
    | succ j =>
      rw [show 2 * (j + 1) + 1 = (2 * j + 1) + 1 + 1 by omega]
      simp only [List.cons_append, List.nil_append, List.getElem?_cons_succ]
      exact ih j (by omega)

/-! ## Claims about `api` -/

/-- C4: when every transport invocation returns a body that fails to parse as a
response envelope, `api` invokes the transport exactly 6 times before returning. -/
theorem api_malformed_six_attempts (z : Zulip) (env : Env) (url method : String)
    (params : Values) (n : Nat)
    (h : ∀ j, env.malformed (env.tryToCallApi j) = true) :
    invocations (z.api env url method params n).trace = 6
      ∧ (z.api env url method params n).n = n + 6 := by
  rw [api_exhausted z env url method params n (fun j _ => by simp [Env.transient, h])]
  exact ⟨invocations_retries url method params 6, rfl⟩

/-- C4 at a transport that always returns the empty body. -/
theorem api_malformed_six_attempts_witness :
    (∀ j, (sampleEnv []).malformed ((sampleEnv []).tryToCallApi j) = true)
      ∧ invocations (sampleZulip.api (sampleEnv []) "api/v1/register" "POST" [] 0).trace = 6
      ∧ (sampleZulip.api (sampleEnv []) "api/v1/register" "POST" [] 0).n = 0 + 6 :=
  ⟨fun _ => rfl,
    api_malformed_six_attempts sampleZulip (sampleEnv []) "api/v1/register" "POST" [] 0
      (fun _ => rfl)⟩

/-- C5 fails as stated: with a transport that always returns the empty body,
which never parses, `api` sleeps 6 times, not 5, and its last action is a sleep. -/
theorem api_malformed_sleeps_not_five :
    (∀ j, (sampleEnv []).malformed ((sampleEnv []).tryToCallApi j) = true)
      ∧ sleeps (sampleZulip.api (sampleEnv []) "api/v1/register" "POST" [] 0).trace ≠ 5
      ∧ (sampleZulip.api (sampleEnv []) "api/v1/register" "POST" [] 0).trace.getLast?
          = some Action.sleep :=
  ⟨fun _ => rfl, by decide, by decide⟩

/-- C5 as amended: when every transport invocation returns a body that fails to
parse as a response envelope, `api` sleeps exactly 6 times, once after each of
its six attempts, the last attempt included. -/
theorem api_malformed_six_sleeps (z : Zulip) (env : Env) (url method : String)
    (params : Values) (n : Nat)
    (h : ∀ j, env.malformed (env.tryToCallApi j) = true) :
    sleeps (z.api env url method params n).trace = 6
      ∧ (z.api env url method params n).trace
          = (List.replicate 6 [Action.call url method params, Action.sleep]).flatten := by
  rw [api_exhausted z env url method params n (fun j _ => by simp [Env.transient, h])]
  exact ⟨sleeps_retries url method params 6, rfl⟩

/-- C5 as amended, at a transport that always returns the empty body. -/
theorem api_malformed_six_sleeps_witness :
    (∀ j, (sampleEnv []).malformed ((sampleEnv []).tryToCallApi j) = true)
      ∧ sleeps (sampleZulip.api (sampleEnv []) "api/v1/messages" "POST" [] 0).trace = 6
      ∧ (sampleZulip.api (sampleEnv []) "api/v1/messages" "POST" [] 0).trace
          = (List.replicate 6 [Action.call "api/v1/messages" "POST" [], Action.sleep]).flatten :=
  ⟨fun _ => rfl,
    api_malformed_six_sleeps sampleZulip (sampleEnv []) "api/v1/messages" "POST" [] 0
      (fun _ => rfl)⟩

/-- C6: for every `k ≤ 5`, if the first `k` responses are rate-limit errors and
response `k + 1` is a success envelope, `api` makes exactly `k + 1` transport
invocations and returns the bytes of response `k + 1` with a nil error. -/
theorem api_rate_limit_then_success (z : Zulip) (env : Env) (url method : String)
    (params : Values) (n k : Nat) (res : BaseResponse) (hk : k ≤ 5)
    (hr : ∀ j, j < k → env.rateLimited (env.tryToCallApi (n + j)) = true)
    (hs : env.unmarshalBase (env.tryToCallApi (n + k)) = .ok res)
    (hres : res.Result = "success") :
    invocations (z.api env url method params n).trace = k + 1
      ∧ (z.api env url method params n).n = n + (k + 1)
      ∧ (z.api env url method params n).bytes = env.tryToCallApi (n + k)
      ∧ (z.api env url method params n).err = none := by
  have hf : env.transient (env.tryToCallApi (n + k)) = false := by
    simp [Env.transient, Env.malformed, Env.rateLimited, hs, hres]
  rw [api_returns_after z env url method params n k hk
    (fun j hj => by simp [Env.transient, hr j hj]) hf]
  refine ⟨?_, rfl, rfl, rfl⟩
  have := invocations_retries url method params k
  simp only [invocations] at this ⊢
  simp [List.countP_append, this]

/-- C6 at three rate-limit errors followed by a success: returned on the 4th attempt. -/
theorem api_rate_limit_then_success_witness :
    invocations (sampleZulip.api (sampleEnv [[2], [2], [2], [1]]) "api/v1/events" "GET" [] 0).trace
        = 3 + 1
      ∧ (sampleZulip.api (sampleEnv [[2], [2], [2], [1]]) "api/v1/events" "GET" [] 0).n = 0 + (3 + 1)
      ∧ (sampleZulip.api (sampleEnv [[2], [2], [2], [1]]) "api/v1/events" "GET" [] 0).bytes
        = (sampleEnv [[2], [2], [2], [1]]).tryToCallApi (0 + 3)
      ∧ (sampleZulip.api (sampleEnv [[2], [2], [2], [1]]) "api/v1/events" "GET" [] 0).err = none :=
  api_rate_limit_then_success sampleZulip (sampleEnv [[2], [2], [2], [1]]) "api/v1/events" "GET"
    [] 0 3 ⟨"success", ""⟩ (by decide) (by decide) rfl rfl

/-- C7: an attempt of `api` goes on to a sleep, and within the budget to another
attempt, if and only if its response fails to parse or parses with result
`"error"` and a message beginning with the marker; for every other parseable
first response `api` makes exactly one transport invocation, does not sleep,
and returns those bytes unchanged with a nil error. -/
theorem api_retries_only_transient (z : Zulip) (env : Env) (url method : String)
    (params : Values) (n : Nat) :
    (∀ j, j < invocations (z.api env url method params n).trace →
        ((z.api env url method params n).trace[2 * j + 1]? = some Action.sleep
          ↔ (env.malformed (env.tryToCallApi (n + j)) = true
              ∨ env.rateLimited (env.tryToCallApi (n + j)) = true)))
      ∧ (∀ j, j < 5 →
        (j + 1 < invocations (z.api env url method params n).trace
          ↔ j < invocations (z.api env url method params n).trace
            ∧ (env.malformed (env.tryToCallApi (n + j)) = true
                ∨ env.rateLimited (env.tryToCallApi (n + j)) = true)))
      ∧ (∀ res, env.unmarshalBase (env.tryToCallApi n) = .ok res →
        ¬ (res.Result = "error" ∧ HasPrefix res.Msg rateLimitMarker = true) →
        (z.api env url method params n).trace = [Action.call url method params]
          ∧ invocations (z.api env url method params n).trace = 1
          ∧ sleeps (z.api env url method params n).trace = 0
          ∧ (z.api env url method params n).bytes = env.tryToCallApi n
          ∧ (z.api env url method params n).err = none) := by
  have htr : ∀ b, (env.malformed b = true ∨ env.rateLimited b = true)
      ↔ env.transient b = true := by
    intro b; simp [Env.transient]
  refine ⟨?_, ?_, ?_⟩
  · intro j hj
    rw [htr]
    rcases api_cases z env url method params n with ⟨k, hk, h1, h2, h3⟩ | ⟨h1, h3⟩
    · rw [h3] at hj ⊢
      have hinv : invocations (retries url method params k ++ [Action.call url method params])
          = k + 1 := by
        have := invocations_retries url method params k
        simp only [invocations] at this ⊢
        simp [List.countP_append, this]
      simp only at hj
      rw [hinv] at hj
      simp only
      rcases Nat.lt_succ_iff_lt_or_eq.mp hj with h4 | h4
      · rw [retries_sleep_after url method params _ k j h4]
        simp [h1 j h4]
      · subst h4
        rw [h2]
        have : (retries url method params j ++ [Action.call url method params])[2 * j + 1]?
            = none := by
          apply List.getElem?_eq_none
          simp [length_retries]
        rw [this]
        simp
    · rw [h3] at hj ⊢
      simp only at hj ⊢
      rw [invocations_retries] at hj
      have := retries_sleep_after url method params [] 6 j hj
      rw [List.append_nil] at this
      rw [this]
      simp [h1 j hj]
  · intro j hj
    rw [htr]
    exact apiLoop_next_attempt env url method params 7 0 [] none n j (by omega) (by omega)
  · intro res hp hn
    have hf : env.transient (env.tryToCallApi n) = false := by
      simp only [Env.transient, Env.malformed, Env.rateLimited, hp]
      simpa using hn
    have := api_returns_after z env url method params n 0 (by omega)
      (fun j hj => absurd hj (by omega)) hf
    rw [this]
    simp [retries, invocations, sleeps]

/-- C7 at first responses that are an error with another message and a result
other than `"error"` whose message begins with the marker. -/
theorem api_retries_only_transient_witness :
    ((sampleZulip.api (sampleEnv [[3]]) "api/v1/messages" "POST" [] 0).trace
        = [Action.call "api/v1/messages" "POST" []]
      ∧ invocations (sampleZulip.api (sampleEnv [[3]]) "api/v1/messages" "POST" [] 0).trace = 1
      ∧ sleeps (sampleZulip.api (sampleEnv [[3]]) "api/v1/messages" "POST" [] 0).trace = 0
      ∧ (sampleZulip.api (sampleEnv [[3]]) "api/v1/messages" "POST" [] 0).bytes
          = (sampleEnv [[3]]).tryToCallApi 0
      ∧ (sampleZulip.api (sampleEnv [[3]]) "api/v1/messages" "POST" [] 0).err = none)
    ∧ (sampleZulip.api (sampleEnv [[4]]) "api/v1/messages" "POST" [] 0).bytes = [4] :=
  ⟨(api_retries_only_transient sampleZulip (sampleEnv [[3]]) "api/v1/messages" "POST" [] 0).2.2
      ⟨"error", "Invalid queue"⟩ rfl (by decide),
    ((api_retries_only_transient sampleZulip (sampleEnv [[4]]) "api/v1/messages" "POST" [] 0).2.2
      ⟨"warning", "API usage exceeded rate limit"⟩ rfl (by decide)).2.2.2.1⟩

/-- C8: for every sequence of six responses each of which is malformed or a
rate-limit error, the bytes `api` returns are exactly the bytes of the sixth
response. -/
theorem api_exhausted_returns_sixth (z : Zulip) (env : Env) (url method : String)
    (params : Values) (n : Nat)
    (h : ∀ j, j < 6 → env.malformed (env.tryToCallApi (n + j)) = true
      ∨ env.rateLimited (env.tryToCallApi (n + j)) = true) :
    (z.api env url method params n).bytes = env.tryToCallApi (n + 5)
      ∧ invocations (z.api env url method params n).trace = 6 := by
  rw [api_exhausted z env url method params n (fun j hj => by simpa [Env.transient] using h j hj)]
  exact ⟨rfl, invocations_retries url method params 6⟩

/-- C8 at six responses alternating malformed bodies and rate-limit errors. -/
theorem api_exhausted_returns_sixth_witness :
    (sampleZulip.api (sampleEnv [[], [2], [7], [2], [9, 9], [2]]) "api/v1/events" "GET" [] 0).bytes
        = (sampleEnv [[], [2], [7], [2], [9, 9], [2]]).tryToCallApi (0 + 5)
      ∧ invocations
          (sampleZulip.api (sampleEnv [[], [2], [7], [2], [9, 9], [2]]) "api/v1/events" "GET" [] 0).trace
        = 6 :=
  api_exhausted_returns_sixth sampleZulip (sampleEnv [[], [2], [7], [2], [9, 9], [2]])
    "api/v1/events" "GET" [] 0 (by decide)

/-- C9 fails as stated: six malformed responses in a row make `api` return the
parse error of the sixth, not a nil error. -/
theorem api_exhausted_error_not_nil :
    (∀ j, j < 6 → (sampleEnv []).malformed ((sampleEnv []).tryToCallApi (0 + j)) = true
        ∨ (sampleEnv []).rateLimited ((sampleEnv []).tryToCallApi (0 + j)) = true)
      ∧ (sampleZulip.api (sampleEnv []) "api/v1/events" "GET" [] 0).err
          = some "unexpected end of JSON input"
      ∧ (sampleZulip.api (sampleEnv []) "api/v1/events" "GET" [] 0).err ≠ none :=
  ⟨by decide, by decide, by decide⟩

/-- C9 as amended: for every sequence of six responses each of which is
malformed or a rate-limit error, the error `api` returns is nil exactly when the
sixth response is a rate-limit error, and is the parse error of the sixth
response when that one is malformed. -/
theorem api_exhausted_error (z : Zulip) (env : Env) (url method : String)
    (params : Values) (n : Nat)
    (h : ∀ j, j < 6 → env.malformed (env.tryToCallApi (n + j)) = true
      ∨ env.rateLimited (env.tryToCallApi (n + j)) = true) :
    ((z.api env url method params n).err = none
        ↔ env.rateLimited (env.tryToCallApi (n + 5)) = true)
      ∧ (∀ e, env.unmarshalBase (env.tryToCallApi (n + 5)) = .error e →
          (z.api env url method params n).err = some e) := by
  rw [api_exhausted z env url method params n (fun j hj => by simpa [Env.transient] using h j hj)]
  have h5 := h 5 (by omega)
  simp only [Env.malformed, Env.rateLimited, Env.parseError] at h5 ⊢
  cases hp : env.unmarshalBase (env.tryToCallApi (n + 5)) with
  | error e => simp
  | ok res => simpa [hp] using h5

/-- C9 as amended, at six responses that end in a rate-limit error. -/
theorem api_exhausted_error_witness :
    ((sampleZulip.api (sampleEnv [[], [2], [7], [2], [9, 9], [2]]) "api/v1/events" "GET" [] 0).err
          = none
        ↔ (sampleEnv [[], [2], [7], [2], [9, 9], [2]]).rateLimited
            ((sampleEnv [[], [2], [7], [2], [9, 9], [2]]).tryToCallApi (0 + 5)) = true)
      ∧ (∀ e, (sampleEnv [[], [2], [7], [2], [9, 9], [2]]).unmarshalBase
            ((sampleEnv [[], [2], [7], [2], [9, 9], [2]]).tryToCallApi (0 + 5)) = .error e →
          (sampleZulip.api (sampleEnv [[], [2], [7], [2], [9, 9], [2]]) "api/v1/events" "GET" [] 0).err
            = some e) :=
  api_exhausted_error sampleZulip (sampleEnv [[], [2], [7], [2], [9, 9], [2]])
    "api/v1/events" "GET" [] 0 (by decide)

/-! ## The loop over one batch -/

theorem maxID_cons (c : Int) (e : EventResponse) (es : List EventResponse) :
    maxID c (e :: es) = maxID (max c e.ID) es := rfl

theorem maxID_append (c : Int) (xs ys : List EventResponse) :
    maxID c (xs ++ ys) = maxID (maxID c xs) ys := by
  simp [maxID, List.foldl_append]

theorem le_maxID (es : List EventResponse) : ∀ c : Int, c ≤ maxID c es := by
  induction es with
  | nil => intro c; simp [maxID]
  | cons e es ih =>
    intro c
    rw [maxID_cons]
    exact le_trans (le_max_left c e.ID) (ih _)

theorem mem_le_maxID (es : List EventResponse) :
    ∀ (c : Int) (e : EventResponse), e ∈ es → e.ID ≤ maxID c es := by
  induction es with
  | nil => intro c e he; simp at he
  | cons x es ih =>
    intro c e he
    rw [maxID_cons]
    rcases List.mem_cons.mp he with h | h
    · subst h
      exact le_trans (le_max_right c e.ID) (le_maxID es _)
    · exact ih _ e h

theorem maxID_eq_or_mem (es : List EventResponse) :
    ∀ c : Int, maxID c es = c ∨ ∃ e, e ∈ es ∧ e.ID = maxID c es := by
  induction es with
  | nil => intro c; left; rfl
  | cons x es ih =>
    intro c
    rw [maxID_cons]
    rcases ih (max c x.ID) with h | ⟨e, he, h⟩
    · rw [h]
      rcases max_choice c x.ID with h2 | h2
      · left; exact h2
      · right; exact ⟨x, List.mem_cons_self _ _, h2.symm⟩
    · right; exact ⟨e, List.mem_cons_of_mem _ he, h⟩

/-- The cursor update of the loop is `max`. -/
theorem cursor_update (id c : Int) : (if id > c then id else c) = max c id := by
  by_cases h : id > c
  · rw [if_pos h, max_eq_right (le_of_lt h)]
  · rw [if_neg h, max_eq_left (not_lt.mp h)]

theorem present_append_map (l : List EventResponse) (r : List (Option EventResponse)) :
    present (l.map some ++ r) = l ++ present r := by
  induction l with
  | nil => rfl
  | cons e es ih => simp [present, ih]

theorem present_map_some (l : List EventResponse) : present (l.map some) = l := by
  have := present_append_map l []
  simpa [present] using this

/-- A batch without a nil element is the list of its events. -/
theorem map_present (l : List (Option EventResponse)) (h : none ∉ l) :
    (present l).map some = l := by
  induction l with
  | nil => rfl
  | cons x xs ih =>
    cases x with
    | none => simp at h
    | some e =>
      have hx : none ∉ xs := fun hm => h (List.mem_cons_of_mem _ hm)
      simp [present, ih hx]

/-- A batch that the loop runs to its end holds no nil element. -/
theorem eventLoop_finished {σ : Type} (handler : EventListener σ)
    (events : List (Option EventResponse)) :
    ∀ (c : Int) (s : σ), (eventLoop handler events c s).exit = .finished → none ∉ events := by
  induction events with
  | nil => intro c s _; simp
  | cons x xs ih =>
    intro c s h
    cases x with
    | none => simp [eventLoop] at h
    | some e =>
      simp only [eventLoop] at h
      have hx : none ∉ xs := by
        by_cases hb : e.Type_ = "heartbeat"
        · simp only [hb, if_true] at h
          exact ih _ s h
        · simp only [hb, if_false] at h
          cases hr : (handler.HandleEvent s e).1 with
          | false => simp [hr] at h
          | true =>
            simp only [hr, Bool.not_true, Bool.false_eq_true, if_false, Batch.after] at h
            exact ih _ _ h
      simp [hx]

/-- A loop that is not left by `return` leaves the cursor at the largest of its
old value and the identifiers of the events it read: those before the first nil
element, all of them when the batch is run to its end. -/
theorem eventLoop_cursor {σ : Type} (handler : EventListener σ)
    (events : List (Option EventResponse)) :
    ∀ (c : Int) (s : σ), (eventLoop handler events c s).exit ≠ .returned →
      (eventLoop handler events c s).last_event_id = maxID c (present events) := by
  induction events with
  | nil => intro c s _; rfl
  | cons x xs ih =>
    intro c s h
    cases x with
    | none => rfl
    | some e =>
      simp only [present]
      rw [maxID_cons, ← cursor_update]
      simp only [eventLoop] at h ⊢
      by_cases hb : e.Type_ = "heartbeat"
      · simp only [hb, if_true] at h ⊢
        exact ih _ s h
      · simp only [hb, if_false] at h ⊢
        cases hr : (handler.HandleEvent s e).1 with
        | false => simp [hr] at h
        | true =>
          simp only [hr, Bool.not_true, Bool.false_eq_true, if_false, Batch.after] at h ⊢
          exact ih _ _ h

/-- The loop over a batch never lowers the cursor, however it ends. -/
theorem eventLoop_cursor_le {σ : Type} (handler : EventListener σ)
    (events : List (Option EventResponse)) :
    ∀ (c : Int) (s : σ), c ≤ (eventLoop handler events c s).last_event_id := by
  induction events with
  | nil => intro c s; exact le_refl c
  | cons x xs ih =>
    intro c s
    cases x with
    | none => exact le_refl c
    | some e =>
      have hc : c ≤ (if e.ID > c then e.ID else c) := by
        rw [cursor_update]; exact le_max_left c e.ID
      simp only [eventLoop]
      by_cases hb : e.Type_ = "heartbeat"
      · simp only [hb, if_true]
        exact le_trans hc (ih _ s)
      · simp only [hb, if_false]
        cases hr : (handler.HandleEvent s e).1 with
        | false => simpa using hc
        | true =>
          simp only [Bool.not_true, Bool.false_eq_true, if_false, Batch.after]
          exact le_trans hc (ih _ _)

/-! ## One iteration of the outer loop -/

/-- An iteration whose poll brings a success envelope runs the loop over its
events and goes on, returns or panics as that loop says. -/
theorem iteration_success {σ : Type} (z : Zulip) (env : Env) (handler : EventListener σ)
    (st : Poller σ) (bytes : Bytes) (res : EventsResponse)
    (hf : (z.tryToGetEvents env (FormatInt st.last_event_id) st.n).res = .ok bytes)
    (hp : env.unmarshalEvents bytes = .ok res) (hs : res.Result = "success") :
    z.iteration env handler st
      = match (eventLoop handler res.Events st.last_event_id st.handler).exit with
        | .finished => .next (z.afterBatch env handler st res.Events)
        | .returned => .returned (z.afterBatch env handler st res.Events)
        | .panicked e => .panicked e (z.afterBatch env handler st res.Events) := by
  simp only [Zulip.iteration, hf, hp, hs, ne_eq, not_true_eq_false, if_false, Zulip.afterBatch]

/-- An iteration whose poll brings an envelope with another result goes on to
the next iteration with the cursor and the handler untouched. -/
theorem iteration_not_success {σ : Type} (z : Zulip) (env : Env) (handler : EventListener σ)
    (st : Poller σ) (bytes : Bytes) (res : EventsResponse)
    (hf : (z.tryToGetEvents env (FormatInt st.last_event_id) st.n).res = .ok bytes)
    (hp : env.unmarshalEvents bytes = .ok res) (hs : res.Result ≠ "success") :
    z.iteration env handler st
      = .next ⟨st.last_event_id, st.handler,
          (z.tryToGetEvents env (FormatInt st.last_event_id) st.n).n,
          st.trace ++ (z.tryToGetEvents env (FormatInt st.last_event_id) st.n).trace⟩ := by
  simp only [Zulip.iteration, hf, hp, hs, ne_eq, not_false_eq_true, if_true]

/-- An iteration that goes on has received a batch without a nil element and
leaves the cursor at the largest of its old value and the identifiers of that
batch. -/
theorem iteration_next_cursor {σ : Type} (z : Zulip) (env : Env) (handler : EventListener σ)
    (st st1 : Poller σ) (h : z.iteration env handler st = .next st1) :
    st1.last_event_id = maxID st.last_event_id (present (z.polled env st))
      ∧ none ∉ z.polled env st := by
  cases hf : (z.tryToGetEvents env (FormatInt st.last_event_id) st.n).res with
  | error e => simp [Zulip.iteration, hf] at h
  | ok bytes =>
    cases hp : env.unmarshalEvents bytes with
    | error e => simp [Zulip.iteration, hf, hp] at h
    | ok res =>
      by_cases hs : res.Result = "success"
      · have hpol : z.polled env st = res.Events := by simp [Zulip.polled, hf, hp, hs]
        rw [iteration_success z env handler st bytes res hf hp hs] at h
        rw [hpol]
        cases hx : (eventLoop handler res.Events st.last_event_id st.handler).exit with
        | returned => simp [hx] at h
        | panicked e => simp [hx] at h
        | finished =>
          simp only [hx, Step.next.injEq] at h
          rw [← h]
          exact ⟨eventLoop_cursor handler res.Events _ _ (by rw [hx]; simp),
            eventLoop_finished handler res.Events _ _ hx⟩
      · have hpol : z.polled env st = [] := by simp [Zulip.polled, hf, hp, hs]
        rw [iteration_not_success z env handler st bytes res hf hp hs] at h
        simp only [Step.next.injEq] at h
        rw [← h, hpol]
        exact ⟨rfl, by simp⟩

/-- An iteration that panics leaves the cursor at the largest of its old value
and the identifiers of the events it read, if any. -/
theorem iteration_panicked_cursor {σ : Type} (z : Zulip) (env : Env)
    (handler : EventListener σ) (st st1 : Poller σ) (e : String)
    (h : z.iteration env handler st = .panicked e st1) :
    st1.last_event_id = maxID st.last_event_id (present (z.polled env st)) := by
  cases hf : (z.tryToGetEvents env (FormatInt st.last_event_id) st.n).res with
  | error e1 =>
    have hpol : z.polled env st = [] := by simp [Zulip.polled, hf]
    simp only [Zulip.iteration, hf, Step.panicked.injEq] at h
    rw [← h.2, hpol]
    rfl
  | ok bytes =>
    cases hp : env.unmarshalEvents bytes with
    | error e1 =>
      have hpol : z.polled env st = [] := by simp [Zulip.polled, hf, hp]
      simp only [Zulip.iteration, hf, hp, Step.panicked.injEq] at h
      rw [← h.2, hpol]
      rfl
    | ok res =>
      by_cases hs : res.Result = "success"
      · have hpol : z.polled env st = res.Events := by simp [Zulip.polled, hf, hp, hs]
        rw [iteration_success z env handler st bytes res hf hp hs] at h
        rw [hpol]
        cases hx : (eventLoop handler res.Events st.last_event_id st.handler).exit with
        | returned => simp [hx] at h
        | finished => simp [hx] at h
        | panicked e1 =>
          simp only [hx, Step.panicked.injEq] at h
          rw [← h.2]
          exact eventLoop_cursor handler res.Events _ _ (by rw [hx]; simp)
      · rw [iteration_not_success z env handler st bytes res hf hp hs] at h
        simp at h

/-- No iteration lowers the cursor. -/
theorem iteration_cursor_le {σ : Type} (z : Zulip) (env : Env) (handler : EventListener σ)
    (st : Poller σ) :
    match z.iteration env handler st with
    | .next st1 => st.last_event_id ≤ st1.last_event_id
    | .returned st1 => st.last_event_id ≤ st1.last_event_id
    | .panicked _ st1 => st.last_event_id ≤ st1.last_event_id := by
  cases hf : (z.tryToGetEvents env (FormatInt st.last_event_id) st.n).res with
  | error e1 => simp [Zulip.iteration, hf]
  | ok bytes =>
    cases hp : env.unmarshalEvents bytes with
    | error e1 => simp [Zulip.iteration, hf, hp]
    | ok res =>
      by_cases hs : res.Result = "success"
      · rw [iteration_success z env handler st bytes res hf hp hs]
        have := eventLoop_cursor_le handler res.Events st.last_event_id st.handler
        cases hx : (eventLoop handler res.Events st.last_event_id st.handler).exit with
        | finished => simpa [hx, Zulip.afterBatch] using this
        | returned => simpa [hx, Zulip.afterBatch] using this
        | panicked e => simpa [hx, Zulip.afterBatch] using this
      · rw [iteration_not_success z env handler st bytes res hf hp hs]

/-! ## Runs of the outer loop -/

/-- The cursor never goes down along a run. -/
theorem GetEventsLoop_cursor_le {σ : Type} (z : Zulip) (env : Env) (handler : EventListener σ) :
    ∀ (fuel : Nat) (st : Poller σ),
      st.last_event_id ≤ (z.GetEventsLoop env handler fuel st).state.last_event_id := by
  intro fuel
  induction fuel with
  | zero => intro st; exact le_refl _
  | succ fuel ih =>
    intro st
    have h := iteration_cursor_le z env handler st
    simp only [Zulip.GetEventsLoop]
    cases hi : z.iteration env handler st with
    | next st1 =>
      rw [hi] at h
      exact le_trans h (ih st1)
    | returned st1 => rw [hi] at h; exact h
    | panicked e st1 => rw [hi] at h; exact h

/-- Along a run that the handler does not stop, the cursor is the largest of its
first value and the identifiers of all events read: those that stand before the
first nil element received, all of them when there is none. -/
theorem GetEventsLoop_cursor {σ : Type} (z : Zulip) (env : Env) (handler : EventListener σ) :
    ∀ (fuel : Nat) (st : Poller σ),
      (z.GetEventsLoop env handler fuel st).outcome ≠ .returned →
      (z.GetEventsLoop env handler fuel st).state.last_event_id
        = maxID st.last_event_id (present (z.seen env handler fuel st)) := by
  intro fuel
  induction fuel with
  | zero => intro st _; rfl
  | succ fuel ih =>
    intro st h
    simp only [Zulip.GetEventsLoop, Zulip.seen] at h ⊢
    cases hi : z.iteration env handler st with
    | next st1 =>
      simp only [hi] at h ⊢
      have hn := iteration_next_cursor z env handler st st1 hi
      rw [← map_present (z.polled env st) hn.2, present_append_map, maxID_append, ← hn.1]
      exact ih st1 h
    | returned st1 => simp [hi] at h
    | panicked e st1 =>
      have := iteration_panicked_cursor z env handler st st1 e hi
      simp only [hi, List.append_nil]
      exact this

/-- A run that is still polling has received no nil element. -/
theorem GetEventsLoop_polling_seen {σ : Type} (z : Zulip) (env : Env)
    (handler : EventListener σ) :
    ∀ (fuel : Nat) (st : Poller σ),
      (z.GetEventsLoop env handler fuel st).outcome = .polling →
      none ∉ z.seen env handler fuel st := by
  intro fuel
  induction fuel with
  | zero => intro st _; simp [Zulip.seen]
  | succ fuel ih =>
    intro st h
    simp only [Zulip.GetEventsLoop, Zulip.seen] at h ⊢
    cases hi : z.iteration env handler st with
    | next st1 =>
      simp only [hi] at h ⊢
      have hn := iteration_next_cursor z env handler st st1 hi
      have := ih st1 h
      simp [hn.2, this]
    | returned st1 => simp [hi] at h
    | panicked e st1 => simp [hi] at h

/-! ## What reaches the handler -/

theorem regular_cons_heartbeat (e : EventResponse) (es : List EventResponse)
    (h : e.Type_ = "heartbeat") : regular (e :: es) = regular es := by
  simp [regular, h]

theorem regular_cons_other (e : EventResponse) (es : List EventResponse)
    (h : ¬ e.Type_ = "heartbeat") : regular (e :: es) = e :: regular es := by
  simp [regular, h]

theorem dispatched_append (a b : List Action) :
    dispatched (a ++ b) = dispatched a ++ dispatched b := by
  simp [dispatched, List.filterMap_append]

theorem dispatched_retries (url method : String) (params : Values) (m : Nat) :
    dispatched (retries url method params m) = [] := by
  induction m with
  | zero => simp [retries, dispatched]
  | succ m ih =>
    rw [retries_succ, dispatched_append, ih]
    simp [dispatched]

/-- No handler call happens inside `api`. -/
theorem dispatched_api (z : Zulip) (env : Env) (url method : String) (params : Values)
    (n : Nat) : dispatched (z.api env url method params n).trace = [] := by
  rcases api_cases z env url method params n with ⟨k, _, _, _, h⟩ | ⟨_, h⟩
  · rw [h]
    simp only
    rw [dispatched_append, dispatched_retries]
    simp [dispatched]
  · rw [h]
    exact dispatched_retries url method params 6

/-- The actions of `tryToGetEvents` are those of its call of `api`. -/
theorem tryToGetEvents_trace (z : Zulip) (env : Env) (last_event_id : String) (n : Nat) :
    (z.tryToGetEvents env last_event_id n).trace
        = (z.api env "api/v1/events" "GET"
            [("queue_id", z.queueID), ("last_event_id", last_event_id)] n).trace
      ∧ (z.tryToGetEvents env last_event_id n).n
        = (z.api env "api/v1/events" "GET"
            [("queue_id", z.queueID), ("last_event_id", last_event_id)] n).n := by
  have hv : Values.Set (Values.Set [] "queue_id" z.queueID) "last_event_id" last_event_id
      = [("queue_id", z.queueID), ("last_event_id", last_event_id)] := by
    simp [Values.Set]
  simp only [Zulip.tryToGetEvents, hv]
  split <;> exact ⟨rfl, rfl⟩

theorem dispatched_tryToGetEvents (z : Zulip) (env : Env) (last_event_id : String) (n : Nat) :
    dispatched (z.tryToGetEvents env last_event_id n).trace = [] := by
  rw [(tryToGetEvents_trace z env last_event_id n).1]
  exact dispatched_api z env _ _ _ n

theorem dispatched_handles (es : List EventResponse) :
    ∀ bs : List Bool, es.length ≤ bs.length →
      dispatched (List.zipWith Action.handle es bs) = es := by
  induction es with
  | nil => intro bs _; simp [dispatched]
  | cons e es ih =>
    intro bs h
    cases bs with
    | nil => simp at h
    | cons b bs =>
      have := ih bs (by simpa using h)
      simp only [dispatched] at this ⊢
      simp [List.zipWith, this]

/-- With a handler that always answers true the loop passes to it the events
that it reads and that are not heartbeats, in order; it is never left by
`return`, and it runs to the end of a batch without a nil element. -/
theorem eventLoop_all_true {σ : Type} (handler : EventListener σ)
    (hall : ∀ s e, (handler.HandleEvent s e).1 = true)
    (events : List (Option EventResponse)) :
    ∀ (c : Int) (s : σ), (eventLoop handler events c s).exit ≠ .returned
      ∧ (eventLoop handler events c s).trace
          = (regular (present events)).map (fun e => Action.handle e true)
      ∧ (none ∉ events → (eventLoop handler events c s).exit = .finished) := by
  induction events with
  | nil => intro c s; exact ⟨by simp [eventLoop], rfl, fun _ => rfl⟩
  | cons x xs ih =>
    intro c s
    cases x with
    | none => exact ⟨by simp [eventLoop], rfl, fun h => by simp at h⟩
    | some e =>
      simp only [eventLoop, present]
      by_cases hb : e.Type_ = "heartbeat"
      · simp only [hb, if_true]
        rw [regular_cons_heartbeat e _ hb]
        have := ih (if e.ID > c then e.ID else c) s
        exact ⟨this.1, this.2.1,
          fun h => this.2.2 (fun hm => h (List.mem_cons_of_mem _ hm))⟩
      · simp only [hb, if_false, hall s e, Bool.not_true, Bool.false_eq_true, Batch.after]
        rw [regular_cons_other e _ hb]
        have := ih (if e.ID > c then e.ID else c) (handler.HandleEvent s e).2
        exact ⟨this.1, by simp [this.2.1],
          fun h => this.2.2 (fun hm => h (List.mem_cons_of_mem _ hm))⟩

/-- When the handler answers true `m` times and then false to the events that
the loop reads and that are not heartbeats, the loop passes to it the first
`m + 1` of them and is left by `return`. -/
theorem eventLoop_stop {σ : Type} (handler : EventListener σ)
    (events : List (Option EventResponse)) :
    ∀ (c : Int) (s : σ) (m : Nat),
      (answers handler s (regular (present events))).take (m + 1)
          = List.replicate m true ++ [false] →
      (eventLoop handler events c s).exit = .returned
        ∧ (eventLoop handler events c s).trace
            = List.zipWith Action.handle ((regular (present events)).take (m + 1))
                (List.replicate m true ++ [false]) := by
  induction events with
  | nil => intro c s m h; simp [present, regular, answers] at h
  | cons x xs ih =>
    intro c s m h
    cases x with
    | none => simp [present, regular, answers] at h
    | some e =>
      simp only [eventLoop]
      simp only [present] at h ⊢
      by_cases hb : e.Type_ = "heartbeat"
      · simp only [hb, if_true]
        rw [regular_cons_heartbeat e _ hb] at h ⊢
        exact ih _ s m h
      · rw [regular_cons_other e _ hb] at h ⊢
        simp only [hb, if_false]
        simp only [answers, List.take_succ_cons] at h
        cases m with
        | zero =>
          simp only [List.take_zero, List.replicate_zero, List.nil_append, List.cons.injEq,
            and_true] at h
          simp [h]
        | succ m =>
          simp only [List.replicate_succ, List.cons_append, List.cons.injEq] at h
          have := ih (if e.ID > c then e.ID else c) (handler.HandleEvent s e).2 m h.2
          simp only [h.1, Bool.not_true, Bool.false_eq_true, if_false, Batch.after]
          refine ⟨this.1, ?_⟩
          rw [this.2]
          simp [List.replicate_succ]

/-- The first action of `api` is a transport invocation with its arguments. -/
theorem api_trace_head (z : Zulip) (env : Env) (url method : String) (params : Values)
    (n : Nat) :
    ∃ t, (z.api env url method params n).trace = Action.call url method params :: t := by
  rcases api_cases z env url method params n with ⟨k, _, _, _, h⟩ | ⟨_, h⟩
  · rw [h]
    cases k with
    | zero => exact ⟨[], by simp [retries]⟩
    | succ k => exact ⟨_, by rw [retries_succ]; rfl⟩
  · rw [h]
    exact ⟨_, by rw [retries_succ]; rfl⟩

/-- One iteration followed as a run. -/
theorem GetEventsLoop_one {σ : Type} (z : Zulip) (env : Env) (handler : EventListener σ)
    (st : Poller σ) :
    z.GetEventsLoop env handler 1 st
      = match z.iteration env handler st with
        | .next st1 => ⟨.polling, st1⟩
        | .returned st1 => ⟨.returned, st1⟩
        | .panicked e st1 => ⟨.panicked e, st1⟩ := by
  simp only [Zulip.GetEventsLoop]

/-- The actions of the poll that opens an iteration follow the earlier ones in
the trace after that iteration. -/
theorem GetEventsLoop_one_extends {σ : Type} (z : Zulip) (env : Env)
    (handler : EventListener σ) (st : Poller σ) :
    (st.trace ++ (z.tryToGetEvents env (FormatInt st.last_event_id) st.n).trace)
      <+: (z.GetEventsLoop env handler 1 st).state.trace := by
  rw [GetEventsLoop_one]
  cases hf : (z.tryToGetEvents env (FormatInt st.last_event_id) st.n).res with
  | error e => simp [Zulip.iteration, hf]
  | ok bytes =>
    cases hp : env.unmarshalEvents bytes with
    | error e => simp [Zulip.iteration, hf, hp]
    | ok res =>
      by_cases hs : res.Result = "success"
      · rw [iteration_success z env handler st bytes res hf hp hs]
        cases hx : (eventLoop handler res.Events st.last_event_id st.handler).exit with
        | finished => simp [Zulip.afterBatch]
        | returned => simp [Zulip.afterBatch]
        | panicked e => simp [Zulip.afterBatch]
      · rw [iteration_not_success z env handler st bytes res hf hp hs]

/-- The same in every run of one or more iterations; and a run only adds to the trace. -/
theorem GetEventsLoop_trace_extends {σ : Type} (z : Zulip) (env : Env)
    (handler : EventListener σ) :
    ∀ (fuel : Nat) (st : Poller σ),
      st.trace <+: (z.GetEventsLoop env handler fuel st).state.trace
        ∧ (st.trace ++ (z.tryToGetEvents env (FormatInt st.last_event_id) st.n).trace)
            <+: (z.GetEventsLoop env handler (fuel + 1) st).state.trace := by
  intro fuel
  induction fuel with
  | zero =>
    intro st
    exact ⟨List.prefix_refl _, GetEventsLoop_one_extends z env handler st⟩
  | succ fuel ih =>
    intro st
    have h0 := (ih st).2
    refine ⟨List.IsPrefix.trans (List.prefix_append _ _) h0, ?_⟩
    have h1 := GetEventsLoop_one_extends z env handler st
    rw [GetEventsLoop_one] at h1
    rw [Zulip.GetEventsLoop]
    cases hi : z.iteration env handler st with
    | next st1 =>
      rw [hi] at h1
      simp only at h1 ⊢
      exact List.IsPrefix.trans h1
        (List.IsPrefix.trans (List.prefix_append _ _) (ih st1).2)
    | returned st1 => rw [hi] at h1; exact h1
    | panicked e st1 => rw [hi] at h1; exact h1

theorem dispatched_map_handle (es : List EventResponse) :
    dispatched (es.map (fun e => Action.handle e true)) = es := by
  induction es with
  | nil => rfl
  | cons e es ih =>
    simp only [dispatched] at ih ⊢
    simp [ih]

theorem invocations_append (a b : List Action) :
    invocations (a ++ b) = invocations a + invocations b := by
  simp [invocations, List.countP_append]

theorem sleeps_append (a b : List Action) : sleeps (a ++ b) = sleeps a + sleeps b := by
  simp [sleeps, List.countP_append]

theorem invocations_handles (es : List EventResponse) :
    ∀ bs : List Bool, invocations (List.zipWith Action.handle es bs) = 0 := by
  induction es with
  | nil => intro bs; simp [invocations]
  | cons e es ih =>
    intro bs
    cases bs with
    | nil => simp [invocations]
    | cons b bs =>
      have := ih bs
      simp only [invocations] at this ⊢
      simp [List.zipWith, List.countP_cons, this]

/-! ## Claims about `GetEvents` -/

/-- In a batch without a nil element the events read are its elements. -/
theorem mem_present (l : List (Option EventResponse)) (h : none ∉ l) (e : EventResponse) :
    e ∈ present l ↔ some e ∈ l := by
  have hm := map_present l h
  constructor
  · intro he
    rw [← hm]
    exact List.mem_map_of_mem some he
  · intro he
    rw [← hm] at he
    obtain ⟨x, hx, hxe⟩ := List.mem_map.mp he
    have : x = e := Option.some.inj hxe
    rw [← this]
    exact hx

/-- The events read are the first of the events of the batch. -/
theorem present_reduceOption (l : List (Option EventResponse)) :
    ∃ t, l.reduceOption = present l ++ t := by
  induction l with
  | nil => exact ⟨[], rfl⟩
  | cons x xs ih =>
    cases x with
    | none => exact ⟨(none :: xs).reduceOption, rfl⟩
    | some e =>
      obtain ⟨t, ht⟩ := ih
      exact ⟨t, by simp [present, List.reduceOption_cons_of_some, ht]⟩

/-- C1: a batch processed to its end holds no nil element and leaves the cursor
at the largest of its old value `c` and the identifiers of all events of the
batch, heartbeats included and in whatever order, hence at a value `≥ c`; a run
of `GetEvents`, which starts from -1, that the handler does not stop has its
cursor at the largest of -1 and the identifiers of all events read so far,
which is the largest identifier read when identifiers are `≥ 0` and some event
was read; and while the run is polling the events read are all the events
received, so the cursor is the largest identifier seen across all batches. -/
theorem cursor_is_max_seen {σ : Type} (z : Zulip) (env : Env) (handler : EventListener σ) :
    (∀ (events : List (Option EventResponse)) (c : Int) (s : σ),
      (eventLoop handler events c s).exit = .finished →
        none ∉ events
          ∧ c ≤ (eventLoop handler events c s).last_event_id
          ∧ (eventLoop handler events c s).last_event_id = maxID c (present events)
          ∧ (∀ e, some e ∈ events → e.ID ≤ (eventLoop handler events c s).last_event_id)
          ∧ ((eventLoop handler events c s).last_event_id = c
              ∨ ∃ e, some e ∈ events ∧ e.ID = (eventLoop handler events c s).last_event_id))
      ∧ (∀ (fuel : Nat) (s : σ) (n : Nat),
        (z.GetEvents env handler fuel s n).outcome ≠ .returned →
          (z.GetEvents env handler fuel s n).state.last_event_id
              = maxID (-1) (present (z.seen env handler fuel ⟨-1, s, n, []⟩))
            ∧ (∀ e, e ∈ present (z.seen env handler fuel ⟨-1, s, n, []⟩) →
                e.ID ≤ (z.GetEvents env handler fuel s n).state.last_event_id)
            ∧ ((∀ e, e ∈ present (z.seen env handler fuel ⟨-1, s, n, []⟩) → 0 ≤ e.ID) →
                present (z.seen env handler fuel ⟨-1, s, n, []⟩) ≠ [] →
                ∃ e, e ∈ present (z.seen env handler fuel ⟨-1, s, n, []⟩)
                  ∧ e.ID = (z.GetEvents env handler fuel s n).state.last_event_id))
      ∧ (∀ (fuel : Nat) (s : σ) (n : Nat),
        (z.GetEvents env handler fuel s n).outcome = .polling →
          none ∉ z.seen env handler fuel ⟨-1, s, n, []⟩
            ∧ (∀ e, some e ∈ z.seen env handler fuel ⟨-1, s, n, []⟩ →
                e.ID ≤ (z.GetEvents env handler fuel s n).state.last_event_id)
            ∧ ((∀ e, some e ∈ z.seen env handler fuel ⟨-1, s, n, []⟩ → 0 ≤ e.ID) →
                z.seen env handler fuel ⟨-1, s, n, []⟩ ≠ [] →
                ∃ e, some e ∈ z.seen env handler fuel ⟨-1, s, n, []⟩
                  ∧ e.ID = (z.GetEvents env handler fuel s n).state.last_event_id)) := by
  have hrun : ∀ (fuel : Nat) (s : σ) (n : Nat),
      (z.GetEvents env handler fuel s n).outcome ≠ .returned →
        (z.GetEvents env handler fuel s n).state.last_event_id
            = maxID (-1) (present (z.seen env handler fuel ⟨-1, s, n, []⟩))
          ∧ (∀ e, e ∈ present (z.seen env handler fuel ⟨-1, s, n, []⟩) →
              e.ID ≤ (z.GetEvents env handler fuel s n).state.last_event_id)
          ∧ ((∀ e, e ∈ present (z.seen env handler fuel ⟨-1, s, n, []⟩) → 0 ≤ e.ID) →
              present (z.seen env handler fuel ⟨-1, s, n, []⟩) ≠ [] →
              ∃ e, e ∈ present (z.seen env handler fuel ⟨-1, s, n, []⟩)
                ∧ e.ID = (z.GetEvents env handler fuel s n).state.last_event_id) := by
    intro fuel s n h
    have hc := GetEventsLoop_cursor z env handler fuel ⟨-1, s, n, []⟩ h
    simp only [Zulip.GetEvents] at h ⊢
    rw [hc]
    refine ⟨rfl, fun e he => mem_le_maxID _ _ e he, ?_⟩
    intro hpos hne
    rcases maxID_eq_or_mem (present (z.seen env handler fuel ⟨-1, s, n, []⟩)) (-1) with h1 | h1
    · exfalso
      obtain ⟨e, he⟩ := List.exists_mem_of_ne_nil _ hne
      have h2 := mem_le_maxID _ (-1) e he
      have h3 := hpos e he
      rw [h1] at h2
      omega
    · exact h1
  refine ⟨?_, hrun, ?_⟩
  · intro events c s h
    have hn := eventLoop_finished handler events c s h
    have hc := eventLoop_cursor handler events c s (by rw [h]; simp)
    rw [hc]
    refine ⟨hn, le_maxID _ c, rfl,
      fun e he => mem_le_maxID _ c e ((mem_present events hn e).mpr he), ?_⟩
    rcases maxID_eq_or_mem (present events) c with h1 | ⟨e, he, h1⟩
    · left; exact h1
    · right; exact ⟨e, (mem_present events hn e).mp he, h1⟩
  · intro fuel s n h
    have hr := hrun fuel s n (by rw [h]; simp)
    have hn : none ∉ z.seen env handler fuel ⟨-1, s, n, []⟩ :=
      GetEventsLoop_polling_seen z env handler fuel ⟨-1, s, n, []⟩ h
    refine ⟨hn, fun e he => hr.2.1 e ((mem_present _ hn e).mpr he), ?_⟩
    intro hpos hne
    have hne2 : present (z.seen env handler fuel ⟨-1, s, n, []⟩) ≠ [] := by
      intro h0
      have hm := map_present _ hn
      rw [h0] at hm
      exact hne hm.symm
    obtain ⟨e, he, h1⟩ := hr.2.2 (fun e he => hpos e ((mem_present _ hn e).mp he)) hne2
    exact ⟨e, (mem_present _ hn e).mp he, h1⟩

/-- C1 at a batch with identifiers out of order and a heartbeat carrying the
largest, and at a run of three polls that ends with the cursor at 12. -/
theorem cursor_is_max_seen_witness :
    (eventLoop (stopAt 0) (sampleEventList [3, 1, 7, 0, 5, 1]) 4 0).last_event_id
        = maxID 4 (present (sampleEventList [3, 1, 7, 0, 5, 1]))
      ∧ (eventLoop (stopAt 0) (sampleEventList [3, 1, 7, 0, 5, 1]) 4 0).last_event_id = 7
      ∧ (sampleZulip.GetEvents (sampleEnv [sampleBatch, [3], [5, 12, 0, 2, 1]]) (stopAt 0) 3 0 0
          ).state.last_event_id
        = maxID (-1) (present (sampleZulip.seen (sampleEnv [sampleBatch, [3], [5, 12, 0, 2, 1]])
            (stopAt 0) 3 ⟨-1, 0, 0, []⟩))
      ∧ (sampleZulip.GetEvents (sampleEnv [sampleBatch, [3], [5, 12, 0, 2, 1]]) (stopAt 0) 3 0 0
          ).state.last_event_id = 12
      ∧ none ∉ sampleZulip.seen (sampleEnv [sampleBatch, [3], [5, 12, 0, 2, 1]])
            (stopAt 0) 3 ⟨-1, 0, 0, []⟩ :=
  ⟨((cursor_is_max_seen sampleZulip (sampleEnv []) (stopAt 0)).1
      (sampleEventList [3, 1, 7, 0, 5, 1]) 4 0 (by decide)).2.2.1,
    by decide,
    ((cursor_is_max_seen sampleZulip (sampleEnv [sampleBatch, [3], [5, 12, 0, 2, 1]])
      (stopAt 0)).2.1 3 0 0 (by decide)).1,
    by decide,
    ((cursor_is_max_seen sampleZulip (sampleEnv [sampleBatch, [3], [5, 12, 0, 2, 1]])
      (stopAt 0)).2.2 3 0 0 (by decide)).1⟩

/-- C2 fails as stated: at the success batch of the event 4, a JSON `null` and
the event 6, with a handler that always returns true, the event 4 is dispatched
and `GetEvents` then panics on the nil element, so the event 6, which is not a
heartbeat, is never dispatched. -/
theorem heartbeats_filtered_nil_element :
    (∀ s e, ((stopAt 0).HandleEvent s e).1 = true)
      ∧ (sampleEnv [[5, 4, 1, 0, 2, 6, 1]]).unmarshalEvents [5, 4, 1, 0, 2, 6, 1]
          = .ok ⟨"success", [some ⟨4, "message"⟩, none, some ⟨6, "message"⟩]⟩
      ∧ (sampleZulip.GetEventsLoop (sampleEnv [[5, 4, 1, 0, 2, 6, 1]]) (stopAt 0) 1 start).outcome
          = .panicked nilDereference
      ∧ dispatched (sampleZulip.GetEventsLoop (sampleEnv [[5, 4, 1, 0, 2, 6, 1]]) (stopAt 0) 1
          start).state.trace = [⟨4, "message"⟩]
      ∧ regular ([some ⟨4, "message"⟩, none, some ⟨6, "message"⟩] :
            List (Option EventResponse)).reduceOption
          = [⟨4, "message"⟩, ⟨6, "message"⟩]
      ∧ dispatched (sampleZulip.GetEventsLoop (sampleEnv [[5, 4, 1, 0, 2, 6, 1]]) (stopAt 0) 1
          start).state.trace
        ≠ regular ([some ⟨4, "message"⟩, none, some ⟨6, "message"⟩] :
            List (Option EventResponse)).reduceOption :=
  ⟨fun _ _ => by simp [stopAt], rfl, by decide, by decide, by decide, by decide⟩

/-- C2 as amended: for every success batch that holds no null element and a
handler that always returns true, the events passed to `HandleEvent` in that
iteration are exactly the batch with the events of type `"heartbeat"` removed,
in the original order: every other event is dispatched exactly once and no
heartbeat is dispatched. -/
theorem heartbeats_filtered {σ : Type} (z : Zulip) (env : Env) (handler : EventListener σ)
    (st : Poller σ) (bytes : Bytes) (res : EventsResponse) (batch : List EventResponse)
    (hall : ∀ s e, (handler.HandleEvent s e).1 = true)
    (hf : (z.tryToGetEvents env (FormatInt st.last_event_id) st.n).res = .ok bytes)
    (hp : env.unmarshalEvents bytes = .ok res) (hs : res.Result = "success")
    (hb : res.Events = batch.map some) :
    (z.GetEventsLoop env handler 1 st).outcome = .polling
      ∧ (z.GetEventsLoop env handler 1 st).state.trace
          = st.trace ++ (z.tryToGetEvents env (FormatInt st.last_event_id) st.n).trace
            ++ (regular batch).map
                (fun e => Action.handle e true)
      ∧ dispatched (z.GetEventsLoop env handler 1 st).state.trace
          = dispatched st.trace
            ++ regular batch
      ∧ (∀ e : EventResponse, e.Type_ ≠ "heartbeat" →
          (dispatched (z.GetEventsLoop env handler 1 st).state.trace).count e
            = (dispatched st.trace).count e + batch.count e)
      ∧ (∀ e : EventResponse, e.Type_ = "heartbeat" →
          (dispatched (z.GetEventsLoop env handler 1 st).state.trace).count e
            = (dispatched st.trace).count e) := by
  have hl := eventLoop_all_true handler hall res.Events st.last_event_id st.handler
  have hnil : none ∉ res.Events := by rw [hb]; simp
  have hfin := hl.2.2 hnil
  have hpres : present res.Events = batch := by rw [hb, present_map_some]
  rw [hpres] at hl
  have hone : z.GetEventsLoop env handler 1 st
      = ⟨.polling, z.afterBatch env handler st res.Events⟩ := by
    rw [GetEventsLoop_one, iteration_success z env handler st bytes res hf hp hs, hfin]
  have ht : (z.GetEventsLoop env handler 1 st).state.trace
      = st.trace ++ (z.tryToGetEvents env (FormatInt st.last_event_id) st.n).trace
        ++ (regular batch).map (fun e => Action.handle e true) := by
    rw [hone]
    simp only [Zulip.afterBatch]
    rw [hl.2.1]
  have hd : dispatched (z.GetEventsLoop env handler 1 st).state.trace
      = dispatched st.trace ++ regular batch := by
    rw [ht, dispatched_append, dispatched_append, dispatched_tryToGetEvents,
      dispatched_map_handle]
    simp
  refine ⟨by rw [hone], ht, hd, ?_, ?_⟩
  · intro e he
    rw [hd, List.count_append]
    simp [regular, List.count_filter, he]
  · intro e he
    rw [hd, List.count_append]
    have : e ∉ regular batch := by simp [regular, he]
    simp [List.count_eq_zero_of_not_mem this]

/-- C2 as amended, at a batch of five events with a heartbeat in second place. -/
theorem heartbeats_filtered_witness :
    (sampleZulip.GetEventsLoop (sampleEnv [sampleBatch]) (stopAt 0) 1 start).outcome = .polling
      ∧ dispatched (sampleZulip.GetEventsLoop (sampleEnv [sampleBatch]) (stopAt 0) 1 start).state.trace
          = dispatched start.trace
            ++ regular [⟨3, "message"⟩, ⟨7, "heartbeat"⟩, ⟨5, "message"⟩, ⟨6, "message"⟩,
                ⟨9, "message"⟩]
      ∧ dispatched (sampleZulip.GetEventsLoop (sampleEnv [sampleBatch]) (stopAt 0) 1 start).state.trace
          = [⟨3, "message"⟩, ⟨5, "message"⟩, ⟨6, "message"⟩, ⟨9, "message"⟩] :=
  have h := heartbeats_filtered sampleZulip (sampleEnv [sampleBatch]) (stopAt 0) start sampleBatch
    ⟨"success", sampleEventList [3, 1, 7, 0, 5, 1, 6, 1, 9, 1]⟩
    [⟨3, "message"⟩, ⟨7, "heartbeat"⟩, ⟨5, "message"⟩, ⟨6, "message"⟩, ⟨9, "message"⟩]
    (fun _ _ => by simp [stopAt]) rfl rfl rfl (by decide)
  ⟨h.1, h.2.2.1, by decide⟩

/-- C3: for every success batch and every `k ≥ 1`, if the handler returns true on
the first `k - 1` dispatched events and false on the `k`-th, then `GetEvents`
returns right after that call: exactly the first `k` events of the batch that
are not heartbeats are dispatched, none after them, and no further transport
invocation is made however long the run is followed.  The events dispatched
are taken among those the loop reads, the ones before the first nil element of
the batch if it has one; they are the first `k` events of the whole batch that
are not heartbeats. -/
theorem handler_stop_returns {σ : Type} (z : Zulip) (env : Env) (handler : EventListener σ)
    (st : Poller σ) (bytes : Bytes) (res : EventsResponse) (k : Nat)
    (hf : (z.tryToGetEvents env (FormatInt st.last_event_id) st.n).res = .ok bytes)
    (hp : env.unmarshalEvents bytes = .ok res) (hs : res.Result = "success")
    (hk : 1 ≤ k)
    (ha : (answers handler st.handler
            (regular (present res.Events))).take k
          = List.replicate (k - 1) true ++ [false]) :
    (∀ fuel, z.GetEventsLoop env handler (fuel + 1) st = z.GetEventsLoop env handler 1 st)
      ∧ (z.GetEventsLoop env handler 1 st).outcome = .returned
      ∧ (z.GetEventsLoop env handler 1 st).state.trace
          = st.trace ++ (z.tryToGetEvents env (FormatInt st.last_event_id) st.n).trace
            ++ List.zipWith Action.handle
                ((regular (present res.Events)).take k)
                (List.replicate (k - 1) true ++ [false])
      ∧ dispatched (z.GetEventsLoop env handler 1 st).state.trace
          = dispatched st.trace
            ++ (regular (present res.Events)).take k
      ∧ ((regular (present res.Events)).take k).length = k
      ∧ (regular (present res.Events)).take k = (regular res.Events.reduceOption).take k
      ∧ (z.GetEventsLoop env handler 1 st).state.n
          = (z.tryToGetEvents env (FormatInt st.last_event_id) st.n).n
      ∧ invocations (z.GetEventsLoop env handler 1 st).state.trace
          = invocations st.trace
            + invocations (z.tryToGetEvents env (FormatInt st.last_event_id) st.n).trace := by
  obtain ⟨m, rfl⟩ : ∃ m, k = m + 1 := ⟨k - 1, by omega⟩
  simp only [Nat.add_sub_cancel] at ha ⊢
  have hl := eventLoop_stop handler res.Events st.last_event_id st.handler m ha
  have hit := iteration_success z env handler st bytes res hf hp hs
  rw [hl.1] at hit
  simp only at hit
  have hlen : ((regular (present res.Events)).take (m + 1)).length = m + 1 := by
    have h1 := congrArg List.length ha
    simp only [List.length_take, List.length_append, List.length_replicate,
      List.length_singleton] at h1
    have h2 : (answers handler st.handler (regular (present res.Events))).length
        = (regular (present res.Events)).length := by
      generalize regular (present res.Events) = l
      generalize st.handler = s0
      induction l generalizing s0 with
      | nil => rfl
      | cons e es ih => simp [answers, ih]
    rw [List.length_take]
    omega
  have hwhole : (regular (present res.Events)).take (m + 1)
      = (regular res.Events.reduceOption).take (m + 1) := by
    obtain ⟨t, ht⟩ := present_reduceOption res.Events
    have hle : m + 1 ≤ (regular (present res.Events)).length := by
      rw [List.length_take] at hlen
      omega
    rw [ht]
    simp only [regular, List.filter_append] at hle ⊢
    rw [List.take_append_of_le_length hle]
  have ht : (z.GetEventsLoop env handler 1 st).state.trace
      = st.trace ++ (z.tryToGetEvents env (FormatInt st.last_event_id) st.n).trace
        ++ List.zipWith Action.handle ((regular (present res.Events)).take (m + 1))
            (List.replicate m true ++ [false]) := by
    rw [GetEventsLoop_one, hit]
    simp only [Zulip.afterBatch]
    rw [hl.2]
  refine ⟨?_, ?_, ht, ?_, hlen, hwhole, ?_, ?_⟩
  · intro fuel
    rw [GetEventsLoop_one]
    simp only [Zulip.GetEventsLoop, hit]
  · rw [GetEventsLoop_one, hit]
  · rw [ht, dispatched_append, dispatched_append, dispatched_tryToGetEvents,
      dispatched_handles _ _ (by rw [hlen]; simp)]
    simp
  · rw [GetEventsLoop_one, hit]
    rfl
  · rw [ht, invocations_append, invocations_append, invocations_handles]
    simp

/-- C3 at `k = 3` in a batch with four regular events and a heartbeat: the
events 3, 5 and 6 are dispatched, the event 9 is not, and one transport
invocation was made in all; the same with a JSON `null` after the third. -/
theorem handler_stop_returns_witness :
    ((∀ fuel, sampleZulip.GetEventsLoop (sampleEnv [sampleBatch]) (stopAt 3) (fuel + 1) start
        = sampleZulip.GetEventsLoop (sampleEnv [sampleBatch]) (stopAt 3) 1 start)
      ∧ (sampleZulip.GetEventsLoop (sampleEnv [sampleBatch]) (stopAt 3) 1 start).outcome = .returned
      ∧ dispatched (sampleZulip.GetEventsLoop (sampleEnv [sampleBatch]) (stopAt 3) 1 start).state.trace
          = [⟨3, "message"⟩, ⟨5, "message"⟩, ⟨6, "message"⟩]
      ∧ invocations (sampleZulip.GetEventsLoop (sampleEnv [sampleBatch]) (stopAt 3) 1 start).state.trace
          = 1)
      ∧ (sampleZulip.GetEventsLoop (sampleEnv [[5, 3, 1, 7, 0, 5, 1, 6, 1, 0, 2, 9, 1]]) (stopAt 3)
          1 start).outcome = .returned :=
  have h := handler_stop_returns sampleZulip (sampleEnv [sampleBatch]) (stopAt 3) start sampleBatch
    ⟨"success", sampleEventList [3, 1, 7, 0, 5, 1, 6, 1, 9, 1]⟩ 3 rfl rfl rfl (by decide)
    (by decide)
  have h2 := handler_stop_returns sampleZulip (sampleEnv [[5, 3, 1, 7, 0, 5, 1, 6, 1, 0, 2, 9, 1]])
    (stopAt 3) start [5, 3, 1, 7, 0, 5, 1, 6, 1, 0, 2, 9, 1]
    ⟨"success", sampleEventList [3, 1, 7, 0, 5, 1, 6, 1, 0, 2, 9, 1]⟩ 3 rfl rfl rfl (by decide)
    (by decide)
  ⟨⟨h.1, h.2.1, by decide, by decide⟩, h2.2.1⟩

/-- C10: for every events response that parses with a result other than
`"success"`, the iteration dispatches nothing, leaves the cursor and the handler
unchanged, performs no action besides those of its call of `api` (so no sleep of
its own), and the loop goes on: the next poll is made with the same
`last_event_id`. -/
theorem non_success_skipped {σ : Type} (z : Zulip) (env : Env) (handler : EventListener σ)
    (st : Poller σ) (bytes : Bytes) (res : EventsResponse)
    (hf : (z.tryToGetEvents env (FormatInt st.last_event_id) st.n).res = .ok bytes)
    (hp : env.unmarshalEvents bytes = .ok res) (hs : res.Result ≠ "success") :
    (z.GetEventsLoop env handler 1 st).outcome = .polling
      ∧ (z.GetEventsLoop env handler 1 st).state.last_event_id = st.last_event_id
      ∧ (z.GetEventsLoop env handler 1 st).state.handler = st.handler
      ∧ (z.GetEventsLoop env handler 1 st).state.trace
          = st.trace ++ (z.api env "api/v1/events" "GET"
              [("queue_id", z.queueID), ("last_event_id", FormatInt st.last_event_id)] st.n).trace
      ∧ dispatched (z.GetEventsLoop env handler 1 st).state.trace = dispatched st.trace
      ∧ sleeps (z.GetEventsLoop env handler 1 st).state.trace
          = sleeps st.trace + sleeps (z.api env "api/v1/events" "GET"
              [("queue_id", z.queueID), ("last_event_id", FormatInt st.last_event_id)] st.n).trace
      ∧ (∀ fuel, z.GetEventsLoop env handler (fuel + 1) st
          = z.GetEventsLoop env handler fuel (z.GetEventsLoop env handler 1 st).state)
      ∧ (∀ fuel, ((z.GetEventsLoop env handler 1 st).state.trace
            ++ [Action.call "api/v1/events" "GET"
                [("queue_id", z.queueID), ("last_event_id", FormatInt st.last_event_id)]])
          <+: (z.GetEventsLoop env handler (fuel + 2) st).state.trace) := by
  have hit := iteration_not_success z env handler st bytes res hf hp hs
  have hone : z.GetEventsLoop env handler 1 st
      = ⟨.polling, ⟨st.last_event_id, st.handler,
          (z.tryToGetEvents env (FormatInt st.last_event_id) st.n).n,
          st.trace ++ (z.tryToGetEvents env (FormatInt st.last_event_id) st.n).trace⟩⟩ := by
    rw [GetEventsLoop_one, hit]
  have hstep : ∀ fuel, z.GetEventsLoop env handler (fuel + 1) st
      = z.GetEventsLoop env handler fuel (z.GetEventsLoop env handler 1 st).state := by
    intro fuel
    rw [hone]
    simp only [Zulip.GetEventsLoop, hit]
  refine ⟨by rw [hone], by rw [hone], by rw [hone], ?_, ?_, ?_, hstep, ?_⟩
  · rw [hone, ← (tryToGetEvents_trace z env _ st.n).1]
  · rw [hone]
    simp only
    rw [dispatched_append, dispatched_tryToGetEvents, List.append_nil]
  · rw [hone, ← (tryToGetEvents_trace z env _ st.n).1]
    simp only
    rw [sleeps_append]
  · intro fuel
    rw [hstep (fuel + 1)]
    have hpre := (GetEventsLoop_trace_extends z env handler fuel
      (z.GetEventsLoop env handler 1 st).state).2
    have hcur : (z.GetEventsLoop env handler 1 st).state.last_event_id = st.last_event_id := by
      rw [hone]
    rw [hcur] at hpre
    obtain ⟨t, ht⟩ := api_trace_head z env "api/v1/events" "GET"
      [("queue_id", z.queueID), ("last_event_id", FormatInt st.last_event_id)]
      (z.GetEventsLoop env handler 1 st).state.n
    rw [(tryToGetEvents_trace z env _ _).1, ht] at hpre
    refine List.IsPrefix.trans ?_ hpre
    exact ⟨t, by simp⟩

/-- C10 at an error envelope that carries two events, followed by a success
batch: nothing is dispatched, the cursor stays at -1 and the second poll sends
`last_event_id` -1 again. -/
theorem non_success_skipped_witness :
    (sampleZulip.GetEventsLoop (sampleEnv [[6, 8, 1, 9, 1], sampleBatch]) (stopAt 0) 1 start).outcome
        = .polling
      ∧ (sampleZulip.GetEventsLoop (sampleEnv [[6, 8, 1, 9, 1], sampleBatch]) (stopAt 0) 1 start
          ).state.last_event_id = -1
      ∧ (sampleZulip.GetEventsLoop (sampleEnv [[6, 8, 1, 9, 1], sampleBatch]) (stopAt 0) 1 start
          ).state.trace
        = [Action.call "api/v1/events" "GET" [("queue_id", "q1"), ("last_event_id", "-1")]]
      ∧ (sampleZulip.GetEventsLoop (sampleEnv [[6, 8, 1, 9, 1], sampleBatch]) (stopAt 0) 2 start
          ).state.trace.take 2
        = [Action.call "api/v1/events" "GET" [("queue_id", "q1"), ("last_event_id", "-1")],
            Action.call "api/v1/events" "GET" [("queue_id", "q1"), ("last_event_id", "-1")]] :=
  have h := non_success_skipped sampleZulip (sampleEnv [[6, 8, 1, 9, 1], sampleBatch]) (stopAt 0)
    start [6, 8, 1, 9, 1] ⟨"error", sampleEventList [8, 1, 9, 1]⟩ rfl rfl (by decide)
  ⟨h.1, h.2.1, by decide, by decide⟩

/-! ## The requests of a call of `api` -/

theorem requests_append (a b : List Action) : requests (a ++ b) = requests a ++ requests b := by
  simp [requests, List.filterMap_append]

theorem requests_retries (url method : String) (params : Values) (m : Nat) :
    requests (retries url method params m) = List.replicate m (url, method, params) := by
  induction m with
  | zero => simp [retries, requests]
  | succ m ih =>
    rw [retries_succ, requests_append, ih, List.replicate_succ]
    simp [requests]

theorem length_requests (t : List Action) : (requests t).length = invocations t := by
  induction t with
  | nil => rfl
  | cons a t ih =>
    simp only [requests, invocations] at ih ⊢
    cases a <;> simp [List.filterMap_cons, List.countP_cons, ih]

/-- `api` makes between one and six transport invocations. -/
theorem api_invocations_bounds (z : Zulip) (env : Env) (url method : String) (params : Values)
    (n : Nat) :
    1 ≤ invocations (z.api env url method params n).trace
      ∧ invocations (z.api env url method params n).trace ≤ 6 := by
  rcases api_cases z env url method params n with ⟨k, hk, _, _, h⟩ | ⟨_, h⟩
  · rw [h]
    simp only
    rw [invocations_append, invocations_retries]
    simp [invocations]
    omega
  · rw [h]
    simp only
    rw [invocations_retries]
    omega

/-- Every transport invocation of a call of `api` carries the path, the method
and the parameters the call was given. -/
theorem requests_api (z : Zulip) (env : Env) (url method : String) (params : Values)
    (n : Nat) :
    requests (z.api env url method params n).trace
      = List.replicate (invocations (z.api env url method params n).trace)
          (url, method, params) := by
  rcases api_cases z env url method params n with ⟨k, hk, _, _, h⟩ | ⟨_, h⟩
  · rw [h]
    simp only
    rw [invocations_append, invocations_retries, requests_append, requests_retries]
    simp [requests, invocations, List.replicate_succ']
  · rw [h]
    simp only
    rw [invocations_retries, requests_retries]

/-- The transport counter after `api` is the one before plus the invocations made. -/
theorem api_n (z : Zulip) (env : Env) (url method : String) (params : Values) (n : Nat) :
    (z.api env url method params n).n
      = n + invocations (z.api env url method params n).trace := by
  rcases api_cases z env url method params n with ⟨k, hk, _, _, h⟩ | ⟨_, h⟩
  · rw [h]
    simp only
    rw [invocations_append, invocations_retries]
    simp [invocations]
    omega
  · rw [h]
    simp only
    rw [invocations_retries]

theorem countP_range_all (p : Nat → Bool) (k : Nat) (h : ∀ j, j < k → p j = true) :
    (List.range k).countP p = k := by
  induction k with
  | zero => rfl
  | succ k ih =>
    rw [List.range_succ, List.countP_append, ih (fun j hj => h j (by omega))]
    simp [h k (by omega)]

/-- C18: for every sequence of transport responses `api` ends after at least 1
and at most 6 transport invocations, and the number of sleeps it performs is
the number of its attempts whose response was malformed or a rate-limit error. -/
theorem api_attempt_budget (z : Zulip) (env : Env) (url method : String) (params : Values)
    (n : Nat) :
    1 ≤ invocations (z.api env url method params n).trace
      ∧ invocations (z.api env url method params n).trace ≤ 6
      ∧ (z.api env url method params n).n
          = n + invocations (z.api env url method params n).trace
      ∧ sleeps (z.api env url method params n).trace
          = (List.range (invocations (z.api env url method params n).trace)).countP
              (fun j => env.malformed (env.tryToCallApi (n + j))
                || env.rateLimited (env.tryToCallApi (n + j))) := by
  refine ⟨(api_invocations_bounds z env url method params n).1,
    (api_invocations_bounds z env url method params n).2, api_n z env url method params n, ?_⟩
  have htr : (fun j => env.malformed (env.tryToCallApi (n + j))
      || env.rateLimited (env.tryToCallApi (n + j)))
        = fun j => env.transient (env.tryToCallApi (n + j)) := rfl
  rw [htr]
  rcases api_cases z env url method params n with ⟨k, hk, h1, h2, h⟩ | ⟨h1, h⟩
  · rw [h]
    simp only
    rw [invocations_append, invocations_retries, sleeps_append, sleeps_retries]
    have hc : invocations [Action.call url method params] = 1 := by simp [invocations]
    have hs : sleeps [Action.call url method params] = 0 := by simp [sleeps]
    rw [hc, hs, List.range_succ, List.countP_append,
      countP_range_all (fun j => env.transient (env.tryToCallApi (n + j))) k h1]
    simp [h2]
  · rw [h]
    simp only
    rw [invocations_retries, sleeps_retries,
      countP_range_all (fun j => env.transient (env.tryToCallApi (n + j))) 6 h1]

/-- C20: for every sequence of transport responses `api` returns a non-nil error
if and only if it made six attempts and the sixth response failed to parse; a
call that returns before the sixth attempt returns a nil error, and so does a
call whose sixth response is a rate-limit error, whatever the earlier ones were. -/
theorem api_error_iff (z : Zulip) (env : Env) (url method : String) (params : Values)
    (n : Nat) :
    ((z.api env url method params n).err ≠ none
        ↔ invocations (z.api env url method params n).trace = 6
          ∧ env.malformed (env.tryToCallApi (n + 5)) = true)
      ∧ (invocations (z.api env url method params n).trace < 6 →
          (z.api env url method params n).err = none)
      ∧ (invocations (z.api env url method params n).trace = 6 →
          env.rateLimited (env.tryToCallApi (n + 5)) = true →
          (z.api env url method params n).err = none)
      ∧ (∀ e, (z.api env url method params n).err = some e →
          env.unmarshalBase (env.tryToCallApi (n + 5)) = .error e) := by
  rcases api_cases z env url method params n with ⟨k, hk, h1, h2, h⟩ | ⟨h1, h⟩
  · rw [h]
    simp only
    rw [invocations_append, invocations_retries]
    have hc : invocations [Action.call url method params] = 1 := by simp [invocations]
    rw [hc]
    refine ⟨?_, by simp, by simp, by simp⟩
    constructor
    · intro h3; simp at h3
    · rintro ⟨h3, h4⟩
      have : k = 5 := by omega
      subst this
      simp [Env.transient, h4] at h2
  · rw [h]
    simp only
    rw [invocations_retries]
    simp only [Env.parseError, Env.malformed, Env.rateLimited]
    cases hp : env.unmarshalBase (env.tryToCallApi (n + 5)) with
    | error e => simp
    | ok res => simp

/-- C20 at six responses of which the first, third and fifth fail to parse and
the sixth is a rate-limit error: the error is nil. -/
theorem api_error_iff_witness :
    (sampleZulip.api (sampleEnv [[], [2], [7], [2], [9, 9], [2]]) "api/v1/events" "GET" [] 0).err
        = none
      ∧ ¬ ((sampleZulip.api (sampleEnv [[], [2], [7], [2], [9, 9], [2]]) "api/v1/events" "GET"
            [] 0).err ≠ none) :=
  have h := api_error_iff sampleZulip (sampleEnv [[], [2], [7], [2], [9, 9], [2]])
    "api/v1/events" "GET" [] 0
  ⟨h.2.2.1 (by decide) (by decide), fun hne => by have := (h.1.mp hne).2; revert this; decide⟩

/-! ## Messages -/

/-- The parameters and the call of `SendMessage` for a message of type `"private"`. -/
theorem SendMessage_private (z : Zulip) (env : Env) (json : Json) (msg : Message) (n : Nat)
    (ht : msg.Type_ = "private") :
    z.SendMessage env json msg n
      = ⟨(z.api env "api/v1/messages" "POST"
            [("type", "private"), ("content", msg.Content), ("to", json.Marshal msg.Usernames)]
            n).n,
          (z.api env "api/v1/messages" "POST"
            [("type", "private"), ("content", msg.Content), ("to", json.Marshal msg.Usernames)]
            n).trace⟩ := by
  simp [Zulip.SendMessage, ht, privateMessage, Values.Set]

/-- The parameters and the call of `SendMessage` for a message of type `"stream"`. -/
theorem SendMessage_stream (z : Zulip) (env : Env) (json : Json) (msg : Message) (n : Nat)
    (ht : msg.Type_ = "stream") :
    z.SendMessage env json msg n
      = ⟨(z.api env "api/v1/messages" "POST"
            [("type", "stream"), ("content", msg.Content), ("to", msg.StreamName),
              ("subject", msg.TopicName)] n).n,
          (z.api env "api/v1/messages" "POST"
            [("type", "stream"), ("content", msg.Content), ("to", msg.StreamName),
              ("subject", msg.TopicName)] n).trace⟩ := by
  simp [Zulip.SendMessage, ht, privateMessage, streamMessage, Values.Set]

/-- C12: for every inbound message `m`, if `m.IsPrivate()` holds then `Reply(m)`
is a message of type `"private"` whose `Usernames` are `m.GetRecipients()` and
whose stream and topic names are empty; otherwise it is a message of type
`"stream"` whose `StreamName` is `m.GetStreamName()`, whose `TopicName` is
`m.GetTopicName()` and which carries no recipients. -/
theorem reply_addressing (m : MessageResponse) :
    (m.IsPrivate = true →
        (Reply m).Type_ = "private" ∧ (Reply m).Usernames = m.GetRecipients
          ∧ (Reply m).StreamName = "" ∧ (Reply m).TopicName = "")
      ∧ (m.IsPrivate = false →
        (Reply m).Type_ = "stream" ∧ (Reply m).StreamName = m.GetStreamName
          ∧ (Reply m).TopicName = m.GetTopicName ∧ (Reply m).Usernames = none
          ∧ (Reply m).Usernames.elems = []) := by
  constructor
  · intro h
    simp [Reply, h, NewPrivateMessage, privateMessage]
  · intro h
    simp [Reply, h, NewStreamMessage, streamMessage, Strings.elems]

/-- C12 at an inbound direct message to alice and bob and at an inbound channel
message on channel general, topic standup. -/
theorem reply_addressing_witness :
    ((Reply ⟨true, some ["alice", "bob"], "", ""⟩).Type_ = "private"
        ∧ (Reply ⟨true, some ["alice", "bob"], "", ""⟩).Usernames = some ["alice", "bob"]
        ∧ (Reply ⟨true, some ["alice", "bob"], "", ""⟩).StreamName = ""
        ∧ (Reply ⟨true, some ["alice", "bob"], "", ""⟩).TopicName = "")
      ∧ ((Reply ⟨false, none, "general", "standup"⟩).Type_ = "stream"
        ∧ (Reply ⟨false, none, "general", "standup"⟩).StreamName = "general"
        ∧ (Reply ⟨false, none, "general", "standup"⟩).TopicName = "standup"
        ∧ (Reply ⟨false, none, "general", "standup"⟩).Usernames = none
        ∧ (Reply ⟨false, none, "general", "standup"⟩).Usernames.elems = []) :=
  ⟨(reply_addressing ⟨true, some ["alice", "bob"], "", ""⟩).1 rfl,
    (reply_addressing ⟨false, none, "general", "standup"⟩).2 rfl⟩

/-- C13 fails as stated: for the direct message built from the nil recipient
list, `SendMessage` sends `to` = `null`, which is not the JSON array of its (no)
recipients. -/
theorem send_private_nil_not_array :
    requests (sampleZulip.SendMessage (sampleEnv [[1]]) sampleJson (NewPrivateMessage none) 0).trace
        = [("api/v1/messages", "POST",
            [("type", "private"), ("content", ""), ("to", "null")])]
      ∧ Values.Get [("type", "private"), ("content", ""), ("to", "null")] "to"
          ≠ jsonArray sampleJson (Strings.elems none)
      ∧ jsonArray sampleJson (Strings.elems none) = "[]" :=
  ⟨by decide, by decide, by decide⟩

/-- C13 as amended: for every message of type `"private"` whose recipient list
is not nil (the empty list included), every request of `SendMessage` carries
exactly type = `"private"`, content = the message content and to = the compact
JSON array of the recipient strings in order; no subject parameter is set. -/
theorem send_private_params (z : Zulip) (env : Env) (json : Json) (msg : Message) (n : Nat)
    (xs : List String) (ht : msg.Type_ = "private") (hu : msg.Usernames = some xs) :
    requests (z.SendMessage env json msg n).trace
        = List.replicate (invocations (z.SendMessage env json msg n).trace)
            ("api/v1/messages", "POST",
              [("type", "private"), ("content", msg.Content), ("to", jsonArray json xs)])
      ∧ 1 ≤ invocations (z.SendMessage env json msg n).trace
      ∧ invocations (z.SendMessage env json msg n).trace ≤ 6
      ∧ Values.Has [("type", "private"), ("content", msg.Content), ("to", jsonArray json xs)]
          "subject" = false := by
  rw [SendMessage_private z env json msg n ht, hu]
  have hm : json.Marshal (some xs) = jsonArray json xs := rfl
  rw [hm]
  refine ⟨requests_api z env _ _ _ n, (api_invocations_bounds z env _ _ _ n).1,
    (api_invocations_bounds z env _ _ _ n).2, ?_⟩
  simp [Values.Has, List.lookup]

/-- C13 as amended, at the recipients x and y and at the empty list. -/
theorem send_private_params_witness :
    requests (sampleZulip.SendMessage (sampleEnv [[1]]) sampleJson
          (NewPrivateMessage (some ["x", "y"])) 0).trace
        = [("api/v1/messages", "POST",
            [("type", "private"), ("content", ""), ("to", "[\"x\",\"y\"]")])]
      ∧ requests (sampleZulip.SendMessage (sampleEnv [[1]]) sampleJson
          (NewPrivateMessage (some [])) 0).trace
        = [("api/v1/messages", "POST", [("type", "private"), ("content", ""), ("to", "[]")])] :=
  have h1 := send_private_params sampleZulip (sampleEnv [[1]]) sampleJson
    (NewPrivateMessage (some ["x", "y"])) 0 ["x", "y"] rfl rfl
  have h2 := send_private_params sampleZulip (sampleEnv [[1]]) sampleJson
    (NewPrivateMessage (some [])) 0 [] rfl rfl
  ⟨h1.1.trans (by decide), h2.1.trans (by decide)⟩

/-- C14: for every message of type `"stream"`, so for every message built by
`NewStreamMessage(stream, topic)` whatever its content and its `Usernames`
field, every request of `SendMessage` carries exactly type = `"stream"`,
content = the message content, to = the stream name as it is and subject = the
topic name; type and content are present for both variants. -/
theorem send_stream_params (z : Zulip) (env : Env) (json : Json) (n : Nat) :
    (∀ msg : Message, msg.Type_ = "stream" →
        requests (z.SendMessage env json msg n).trace
            = List.replicate (invocations (z.SendMessage env json msg n).trace)
                ("api/v1/messages", "POST",
                  [("type", "stream"), ("content", msg.Content), ("to", msg.StreamName),
                    ("subject", msg.TopicName)])
          ∧ 1 ≤ invocations (z.SendMessage env json msg n).trace)
      ∧ (∀ (stream topic content : String) (users : Strings),
        requests (z.SendMessage env json
            { NewStreamMessage stream topic with Content := content, Usernames := users } n).trace
          = List.replicate (invocations (z.SendMessage env json
              { NewStreamMessage stream topic with Content := content, Usernames := users } n).trace)
              ("api/v1/messages", "POST",
                [("type", "stream"), ("content", content), ("to", stream), ("subject", topic)]))
      ∧ (∀ msg : Message, msg.Type_ = "private" ∨ msg.Type_ = "stream" →
        ∃ v : Values,
          requests (z.SendMessage env json msg n).trace
              = List.replicate (invocations (z.SendMessage env json msg n).trace)
                  ("api/v1/messages", "POST", v)
            ∧ v.lookup "type" = some msg.Type_ ∧ v.lookup "content" = some msg.Content) := by
  have hs : ∀ msg : Message, msg.Type_ = "stream" →
      requests (z.SendMessage env json msg n).trace
          = List.replicate (invocations (z.SendMessage env json msg n).trace)
              ("api/v1/messages", "POST",
                [("type", "stream"), ("content", msg.Content), ("to", msg.StreamName),
                  ("subject", msg.TopicName)])
        ∧ 1 ≤ invocations (z.SendMessage env json msg n).trace := by
    intro msg ht
    rw [SendMessage_stream z env json msg n ht]
    exact ⟨requests_api z env _ _ _ n, (api_invocations_bounds z env _ _ _ n).1⟩
  refine ⟨hs, ?_, ?_⟩
  · intro stream topic content users
    exact (hs { NewStreamMessage stream topic with Content := content, Usernames := users }
      rfl).1
  · intro msg ht
    rcases ht with ht | ht
    · refine ⟨[("type", "private"), ("content", msg.Content),
        ("to", json.Marshal msg.Usernames)], ?_, ?_, ?_⟩
      · rw [SendMessage_private z env json msg n ht]
        exact requests_api z env _ _ _ n
      · simp [List.lookup, ht]
      · simp [List.lookup]
    · refine ⟨[("type", "stream"), ("content", msg.Content), ("to", msg.StreamName),
        ("subject", msg.TopicName)], (hs msg ht).1, ?_, ?_⟩
      · simp [List.lookup, ht]
      · simp [List.lookup]

/-- C14 at channel c, topic t, with a content and with recipients set as well. -/
theorem send_stream_params_witness :
    requests (sampleZulip.SendMessage (sampleEnv [[1]]) sampleJson
          { NewStreamMessage "c" "t" with Content := "hello", Usernames := some ["x"] } 0).trace
        = [("api/v1/messages", "POST",
            [("type", "stream"), ("content", "hello"), ("to", "c"), ("subject", "t")])] :=
  ((send_stream_params sampleZulip (sampleEnv [[1]]) sampleJson 0).1
    { NewStreamMessage "c" "t" with Content := "hello", Usernames := some ["x"] } rfl).1.trans
    (by decide)

/-! ## Registration -/

/-- The actions of `Register` are those of its call of `api`. -/
theorem Register_trace (z : Zulip) (env : Env) (json : Json) (event_types : Strings) (n : Nat) :
    (z.Register env json event_types n).trace
        = (z.api env "api/v1/register" "POST" [("event_types", json.Marshal event_types)] n).trace
      ∧ (z.Register env json event_types n).n
        = (z.api env "api/v1/register" "POST" [("event_types", json.Marshal event_types)] n).n := by
  have hv : Values.Set [] "event_types" (json.Marshal event_types)
      = [("event_types", json.Marshal event_types)] := by
    simp [Values.Set]
  simp only [Zulip.Register, hv]
  split
  · exact ⟨rfl, rfl⟩
  · split <;> exact ⟨rfl, rfl⟩

/-- `Register` when `api` returns a nil error and the bytes decode. -/
theorem Register_ok (z : Zulip) (env : Env) (json : Json) (event_types : Strings) (n : Nat)
    (res : RegisterResponse)
    (herr : (z.api env "api/v1/register" "POST"
              [("event_types", json.Marshal event_types)] n).err = none)
    (hp : json.unmarshalRegister (z.api env "api/v1/register" "POST"
              [("event_types", json.Marshal event_types)] n).bytes = .ok res) :
    (z.Register env json event_types n).res = .ok res.QueueID
      ∧ (z.Register env json event_types n).z = { z with queueID := res.QueueID } := by
  have hv : Values.Set [] "event_types" (json.Marshal event_types)
      = [("event_types", json.Marshal event_types)] := by
    simp [Values.Set]
  simp [Zulip.Register, hv, herr, hp]

/-- `Register` when `api` returns a nil error and the bytes do not decode. -/
theorem Register_undecodable (z : Zulip) (env : Env) (json : Json) (event_types : Strings)
    (n : Nat) (e : String)
    (herr : (z.api env "api/v1/register" "POST"
              [("event_types", json.Marshal event_types)] n).err = none)
    (hp : json.unmarshalRegister (z.api env "api/v1/register" "POST"
              [("event_types", json.Marshal event_types)] n).bytes = .error e) :
    (z.Register env json event_types n).res = .error e
      ∧ (z.Register env json event_types n).z = z := by
  have hv : Values.Set [] "event_types" (json.Marshal event_types)
      = [("event_types", json.Marshal event_types)] := by
    simp [Values.Set]
  simp [Zulip.Register, hv, herr, hp]

/-- `Register` when `api` returns an error. -/
theorem Register_api_error (z : Zulip) (env : Env) (json : Json) (event_types : Strings)
    (n : Nat) (e : String)
    (herr : (z.api env "api/v1/register" "POST"
              [("event_types", json.Marshal event_types)] n).err = some e) :
    (z.Register env json event_types n).res = .error e
      ∧ (z.Register env json event_types n).z = z := by
  have hv : Values.Set [] "event_types" (json.Marshal event_types)
      = [("event_types", json.Marshal event_types)] := by
    simp [Values.Set]
  simp [Zulip.Register, hv, herr]

/-- C15 fails as stated: given the nil slice of event types, `Register` issues a
request with `event_types` = `null`, which is not the JSON array of the (no)
names given; the response is a success and its queue identifier is returned. -/
theorem register_nil_not_array :
    requests (sampleZulip.Register (sampleEnv [[1]]) sampleJson none 0).trace
        = [("api/v1/register", "POST", [("event_types", "null")])]
      ∧ Values.Get [("event_types", "null")] "event_types"
          ≠ jsonArray sampleJson (Strings.elems none)
      ∧ sampleJson.unmarshalRegister
          (sampleZulip.api (sampleEnv [[1]]) "api/v1/register" "POST"
            [("event_types", "null")] 0).bytes = .ok ⟨"1517975029:0"⟩
      ∧ (sampleZulip.Register (sampleEnv [[1]]) sampleJson none 0).z.queueID = "1517975029:0" :=
  ⟨by decide, by decide, rfl, by decide⟩

/-- C15 as amended: for every registration response that parses successfully,
`Register` returns the `queue_id` of that response and afterwards the stored
`queueID` is the returned value, with `baseUrl` and the credentials unchanged;
when the given slice of event-type names is not nil (the empty one included),
every request it issues carries `event_types` = the JSON array of the names. -/
theorem register_stores_queue (z : Zulip) (env : Env) (json : Json) (event_types : Strings)
    (n : Nat) (res : RegisterResponse)
    (herr : (z.api env "api/v1/register" "POST"
              [("event_types", json.Marshal event_types)] n).err = none)
    (hp : json.unmarshalRegister (z.api env "api/v1/register" "POST"
              [("event_types", json.Marshal event_types)] n).bytes = .ok res) :
    (z.Register env json event_types n).res = .ok res.QueueID
      ∧ (z.Register env json event_types n).z.queueID = res.QueueID
      ∧ (z.Register env json event_types n).z.baseUrl = z.baseUrl
      ∧ (z.Register env json event_types n).z.authLogin = z.authLogin
      ∧ (z.Register env json event_types n).z.authPass = z.authPass
      ∧ 1 ≤ invocations (z.Register env json event_types n).trace
      ∧ (∀ xs, event_types = some xs →
          requests (z.Register env json event_types n).trace
            = List.replicate (invocations (z.Register env json event_types n).trace)
                ("api/v1/register", "POST", [("event_types", jsonArray json xs)])) := by
  have h := Register_ok z env json event_types n res herr hp
  rw [h.1, h.2, (Register_trace z env json event_types n).1]
  refine ⟨rfl, rfl, rfl, rfl, rfl, (api_invocations_bounds z env _ _ _ n).1, ?_⟩
  intro xs hx
  subst hx
  exact requests_api z env _ _ _ n

/-- C15 as amended, at a success response to a registration for two event types. -/
theorem register_stores_queue_witness :
    (sampleZulip.Register (sampleEnv [[1]]) sampleJson (some ["message", "presence"]) 0).res
        = .ok "1517975029:0"
      ∧ (sampleZulip.Register (sampleEnv [[1]]) sampleJson (some ["message", "presence"]) 0
          ).z.queueID = "1517975029:0"
      ∧ requests (sampleZulip.Register (sampleEnv [[1]]) sampleJson
          (some ["message", "presence"]) 0).trace
        = [("api/v1/register", "POST", [("event_types", "[\"message\",\"presence\"]")])] :=
  have h := register_stores_queue sampleZulip (sampleEnv [[1]]) sampleJson
    (some ["message", "presence"]) 0 ⟨"1517975029:0"⟩ (by decide) rfl
  ⟨h.1, h.2.1, (h.2.2.2.2.2.2 ["message", "presence"] rfl).trans (by decide)⟩

/-! ## Fatal conditions -/

/-- Six malformed responses in a row: `api` ends with the parse error of the sixth. -/
theorem api_six_malformed (z : Zulip) (env : Env) (url method : String) (params : Values)
    (n : Nat) (h : ∀ j, j < 6 → env.malformed (env.tryToCallApi (n + j)) = true) :
    ∃ e, env.unmarshalBase (env.tryToCallApi (n + 5)) = .error e
      ∧ z.api env url method params n
          = ⟨env.tryToCallApi (n + 5), some e, n + 6, retries url method params 6⟩ := by
  have h5 := h 5 (by omega)
  rw [api_exhausted z env url method params n (fun j hj => by simp [Env.transient, h j hj])]
  simp only [Env.malformed, Env.parseError] at h5 ⊢
  cases hp : env.unmarshalBase (env.tryToCallApi (n + 5)) with
  | error e => exact ⟨e, rfl, rfl⟩
  | ok res => simp [hp] at h5

/-- An iteration whose poll ends in a panic. -/
theorem iteration_fetch_panics {σ : Type} (z : Zulip) (env : Env) (handler : EventListener σ)
    (st : Poller σ) (e : String)
    (hf : (z.tryToGetEvents env (FormatInt st.last_event_id) st.n).res = .error e) :
    z.iteration env handler st
      = .panicked e ⟨st.last_event_id, st.handler,
          (z.tryToGetEvents env (FormatInt st.last_event_id) st.n).n,
          st.trace ++ (z.tryToGetEvents env (FormatInt st.last_event_id) st.n).trace⟩ := by
  simp only [Zulip.iteration, hf]

/-- `tryToGetEvents` panics with the error `api` returns. -/
theorem tryToGetEvents_api_error (z : Zulip) (env : Env) (last_event_id : String) (n : Nat)
    (e : String)
    (herr : (z.api env "api/v1/events" "GET"
              [("queue_id", z.queueID), ("last_event_id", last_event_id)] n).err = some e) :
    (z.tryToGetEvents env last_event_id n).res = .error e := by
  have hv : Values.Set (Values.Set [] "queue_id" z.queueID) "last_event_id" last_event_id
      = [("queue_id", z.queueID), ("last_event_id", last_event_id)] := by
    simp [Values.Set]
  simp only [Zulip.tryToGetEvents, hv, herr]

/-- C16: if the transport returns un-parseable bytes on six consecutive attempts,
`Register` panics without modifying the stored queue identifier, and `GetEvents`
panics without invoking the handler, each after exactly 6 transport invocations. -/
theorem malformed_is_fatal {σ : Type} (z : Zulip) (env : Env) (json : Json)
    (handler : EventListener σ) :
    (∀ (event_types : Strings) (n : Nat),
      (∀ j, j < 6 → env.malformed (env.tryToCallApi (n + j)) = true) →
        (∃ e, (z.Register env json event_types n).res = .error e)
          ∧ (z.Register env json event_types n).z = z
          ∧ invocations (z.Register env json event_types n).trace = 6
          ∧ (z.Register env json event_types n).n = n + 6)
      ∧ (∀ st : Poller σ,
        (∀ j, j < 6 → env.malformed (env.tryToCallApi (st.n + j)) = true) →
          (∃ e, (z.GetEventsLoop env handler 1 st).outcome = .panicked e)
            ∧ (∀ fuel, z.GetEventsLoop env handler (fuel + 1) st
                = z.GetEventsLoop env handler 1 st)
            ∧ dispatched (z.GetEventsLoop env handler 1 st).state.trace = dispatched st.trace
            ∧ (z.GetEventsLoop env handler 1 st).state.handler = st.handler
            ∧ invocations (z.GetEventsLoop env handler 1 st).state.trace
                = invocations st.trace + 6)
      ∧ (∀ (s : σ) (n fuel : Nat),
        (∀ j, j < 6 → env.malformed (env.tryToCallApi (n + j)) = true) →
          (∃ e, (z.GetEvents env handler (fuel + 1) s n).outcome = .panicked e)
            ∧ dispatched (z.GetEvents env handler (fuel + 1) s n).state.trace = []
            ∧ invocations (z.GetEvents env handler (fuel + 1) s n).state.trace = 6) := by
  have hloop : ∀ st : Poller σ,
      (∀ j, j < 6 → env.malformed (env.tryToCallApi (st.n + j)) = true) →
        (∃ e, (z.GetEventsLoop env handler 1 st).outcome = .panicked e)
          ∧ (∀ fuel, z.GetEventsLoop env handler (fuel + 1) st
              = z.GetEventsLoop env handler 1 st)
          ∧ dispatched (z.GetEventsLoop env handler 1 st).state.trace = dispatched st.trace
          ∧ (z.GetEventsLoop env handler 1 st).state.handler = st.handler
          ∧ invocations (z.GetEventsLoop env handler 1 st).state.trace
              = invocations st.trace + 6 := by
    intro st h
    obtain ⟨e, _, he⟩ := api_six_malformed z env "api/v1/events" "GET"
      [("queue_id", z.queueID), ("last_event_id", FormatInt st.last_event_id)] st.n h
    have hf := tryToGetEvents_api_error z env (FormatInt st.last_event_id) st.n e (by rw [he])
    have hit := iteration_fetch_panics z env handler st e hf
    have htr := (tryToGetEvents_trace z env (FormatInt st.last_event_id) st.n).1
    rw [he] at htr
    simp only at htr
    have hone : z.GetEventsLoop env handler 1 st
        = ⟨.panicked e, ⟨st.last_event_id, st.handler,
            (z.tryToGetEvents env (FormatInt st.last_event_id) st.n).n,
            st.trace ++ (z.tryToGetEvents env (FormatInt st.last_event_id) st.n).trace⟩⟩ := by
      rw [GetEventsLoop_one, hit]
    refine ⟨⟨e, by rw [hone]⟩, ?_, ?_, by rw [hone], ?_⟩
    · intro fuel
      rw [hone]
      simp only [Zulip.GetEventsLoop, hit]
    · rw [hone]
      simp only
      rw [dispatched_append, dispatched_tryToGetEvents, List.append_nil]
    · rw [hone]
      simp only
      rw [invocations_append, htr, invocations_retries]
  refine ⟨?_, hloop, ?_⟩
  · intro event_types n h
    obtain ⟨e, _, he⟩ := api_six_malformed z env "api/v1/register" "POST"
      [("event_types", json.Marshal event_types)] n h
    have hr := Register_api_error z env json event_types n e (by rw [he])
    have ht := Register_trace z env json event_types n
    rw [he] at ht
    simp only at ht
    refine ⟨⟨e, hr.1⟩, hr.2, ?_, ht.2⟩
    rw [ht.1, invocations_retries]
  · intro s n fuel h
    have := hloop ⟨-1, s, n, []⟩ h
    simp only [Zulip.GetEvents]
    rw [this.2.1 fuel]
    refine ⟨this.1, ?_, ?_⟩
    · rw [this.2.2.1]; rfl
    · rw [this.2.2.2.2]; rfl

/-- C16 at a transport that always returns the empty body. -/
theorem malformed_is_fatal_witness :
    ((∃ e, (sampleZulip.Register (sampleEnv []) sampleJson (some ["message"]) 0).res = .error e)
        ∧ (sampleZulip.Register (sampleEnv []) sampleJson (some ["message"]) 0).z = sampleZulip
        ∧ invocations (sampleZulip.Register (sampleEnv []) sampleJson (some ["message"]) 0).trace
            = 6
        ∧ (sampleZulip.Register (sampleEnv []) sampleJson (some ["message"]) 0).n = 0 + 6)
      ∧ ((∃ e, (sampleZulip.GetEvents (sampleEnv []) (stopAt 0) (2 + 1) 0 0).outcome
            = .panicked e)
        ∧ dispatched (sampleZulip.GetEvents (sampleEnv []) (stopAt 0) (2 + 1) 0 0).state.trace = []
        ∧ invocations (sampleZulip.GetEvents (sampleEnv []) (stopAt 0) (2 + 1) 0 0).state.trace
            = 6) :=
  ⟨(malformed_is_fatal sampleZulip (sampleEnv []) sampleJson (stopAt 0)).1 (some ["message"]) 0
      (by decide),
    (malformed_is_fatal sampleZulip (sampleEnv []) sampleJson (stopAt 0)).2.2 0 0 2 (by decide)⟩

/-- C17 fails as stated: on a registration response that parses with result
`"error"` and a message that is not the rate-limit marker, `Register` does not
panic; it returns the empty queue identifier of that response and stores it in
place of the identifier held before. -/
theorem register_error_not_fatal :
    (sampleEnv [[3]]).unmarshalBase ((sampleEnv [[3]]).tryToCallApi 0)
        = .ok ⟨"error", "Invalid queue"⟩
      ∧ HasPrefix "Invalid queue" rateLimitMarker = false
      ∧ (sampleZulip.Register (sampleEnv [[3]]) sampleJson (some ["message"]) 0).res = .ok ""
      ∧ sampleZulip.queueID = "q1"
      ∧ (sampleZulip.Register (sampleEnv [[3]]) sampleJson (some ["message"]) 0).z.queueID = ""
      ∧ (sampleZulip.Register (sampleEnv [[3]]) sampleJson (some ["message"]) 0).z.queueID
          ≠ sampleZulip.queueID :=
  ⟨rfl, by decide, rfl, rfl, by decide, by decide⟩

/-- C17 as amended: for every registration response that parses with result
`"error"` and a message that does not begin with the rate-limit marker, `api`
returns it after one attempt with a nil error, and `Register` panics exactly
when the response fails to decode as a registration response, leaving the
stored queue identifier unchanged then; when the response decodes, `Register`
returns its `queue_id` field and stores it as the queue identifier. -/
theorem register_error_response (z : Zulip) (env : Env) (json : Json) (event_types : Strings)
    (n : Nat) (res : BaseResponse)
    (hp : env.unmarshalBase (env.tryToCallApi n) = .ok res)
    (_hres : res.Result = "error") (hmsg : HasPrefix res.Msg rateLimitMarker = false) :
    invocations (z.Register env json event_types n).trace = 1
      ∧ (∀ r, json.unmarshalRegister (env.tryToCallApi n) = .ok r →
          (z.Register env json event_types n).res = .ok r.QueueID
            ∧ (z.Register env json event_types n).z.queueID = r.QueueID)
      ∧ (∀ e, json.unmarshalRegister (env.tryToCallApi n) = .error e →
          (z.Register env json event_types n).res = .error e
            ∧ (z.Register env json event_types n).z = z) := by
  have hf : env.transient (env.tryToCallApi n) = false := by
    simp [Env.transient, Env.malformed, Env.rateLimited, hp, hmsg]
  have ha := api_returns_after z env "api/v1/register" "POST"
    [("event_types", json.Marshal event_types)] n 0 (by omega)
    (fun j hj => absurd hj (by omega)) hf
  simp only [Nat.add_zero] at ha
  refine ⟨?_, ?_, ?_⟩
  · rw [(Register_trace z env json event_types n).1, ha]
    simp [retries, invocations]
  · intro r hr
    have := Register_ok z env json event_types n r (by rw [ha]) (by rw [ha]; exact hr)
    exact ⟨this.1, by rw [this.2]⟩
  · intro e he
    exact Register_undecodable z env json event_types n e (by rw [ha]) (by rw [ha]; exact he)

/-- C17 as amended, at an error response that decodes and at one that does not. -/
theorem register_error_response_witness :
    ((sampleZulip.Register (sampleEnv [[3]]) sampleJson (some ["message"]) 0).res = .ok ""
        ∧ (sampleZulip.Register (sampleEnv [[3]]) sampleJson (some ["message"]) 0).z.queueID = "")
      ∧ ((sampleZulip.Register (sampleEnv [[6, 1, 1]]) sampleJson (some ["message"]) 0).res
          = .error "json: cannot unmarshal number into Go struct field of type string"
        ∧ (sampleZulip.Register (sampleEnv [[6, 1, 1]]) sampleJson (some ["message"]) 0).z
          = sampleZulip) :=
  ⟨(register_error_response sampleZulip (sampleEnv [[3]]) sampleJson (some ["message"]) 0
      ⟨"error", "Invalid queue"⟩ rfl rfl (by decide)).2.1 ⟨""⟩ rfl,
    (register_error_response sampleZulip (sampleEnv [[6, 1, 1]]) sampleJson (some ["message"]) 0
      ⟨"error", "Invalid queue"⟩ rfl rfl (by decide)).2.2
      "json: cannot unmarshal number into Go struct field of type string" rfl⟩

/-! ## How the poller stops, and what it asks for -/

/-- A loop over a batch that is left by `return` ends with a handler call that
answered false, on an event that it read and that is not a heartbeat. -/
theorem eventLoop_stopped_last {σ : Type} (handler : EventListener σ)
    (events : List (Option EventResponse)) :
    ∀ (c : Int) (s : σ), (eventLoop handler events c s).exit = .returned →
      ∃ e, e ∈ regular (present events)
        ∧ (eventLoop handler events c s).trace.getLast? = some (Action.handle e false) := by
  induction events with
  | nil => intro c s h; simp [eventLoop] at h
  | cons x xs ih =>
    intro c s h
    cases x with
    | none => simp [eventLoop] at h
    | some x =>
      simp only [eventLoop] at h ⊢
      simp only [present]
      by_cases hb : x.Type_ = "heartbeat"
      · simp only [hb, if_true] at h ⊢
        rw [regular_cons_heartbeat x _ hb]
        exact ih _ s h
      · simp only [hb, if_false] at h ⊢
        rw [regular_cons_other x _ hb]
        cases hr : (handler.HandleEvent s x).1 with
        | false =>
          exact ⟨x, List.mem_cons_self _ _, by simp⟩
        | true =>
          simp only [hr, Bool.not_true, Bool.false_eq_true, if_false, Batch.after] at h ⊢
          obtain ⟨e, he, hl⟩ := ih _ _ h
          refine ⟨e, List.mem_cons_of_mem _ he, ?_⟩
          rw [List.getLast?_append, hl]
          rfl

/-- What an iteration that ends in `return` went through. -/
theorem iteration_returned {σ : Type} (z : Zulip) (env : Env) (handler : EventListener σ)
    (st st1 : Poller σ) (h : z.iteration env handler st = .returned st1) :
    ∃ bytes res,
      (z.tryToGetEvents env (FormatInt st.last_event_id) st.n).res = .ok bytes
        ∧ env.unmarshalEvents bytes = .ok res ∧ res.Result = "success"
        ∧ (eventLoop handler res.Events st.last_event_id st.handler).exit = .returned
        ∧ st1.trace
            = st.trace ++ (z.tryToGetEvents env (FormatInt st.last_event_id) st.n).trace
              ++ (eventLoop handler res.Events st.last_event_id st.handler).trace := by
  cases hf : (z.tryToGetEvents env (FormatInt st.last_event_id) st.n).res with
  | error e => simp [Zulip.iteration, hf] at h
  | ok bytes =>
    cases hp : env.unmarshalEvents bytes with
    | error e => simp [Zulip.iteration, hf, hp] at h
    | ok res =>
      by_cases hs : res.Result = "success"
      · rw [iteration_success z env handler st bytes res hf hp hs] at h
        cases hst : (eventLoop handler res.Events st.last_event_id st.handler).exit with
        | finished => simp [hst] at h
        | panicked e => simp [hst] at h
        | returned =>
          simp only [hst, Step.returned.injEq] at h
          exact ⟨bytes, res, rfl, hp, hs, hst, by rw [← h]; rfl⟩
      · rw [iteration_not_success z env handler st bytes res hf hp hs] at h
        simp at h

/-- A run that ended in `return` ends with a handler call that answered false. -/
theorem GetEventsLoop_returned_last {σ : Type} (z : Zulip) (env : Env)
    (handler : EventListener σ) :
    ∀ (fuel : Nat) (st : Poller σ),
      (z.GetEventsLoop env handler fuel st).outcome = .returned →
      ∃ e, (z.GetEventsLoop env handler fuel st).state.trace.getLast?
        = some (Action.handle e false) := by
  intro fuel
  induction fuel with
  | zero => intro st h; simp [Zulip.GetEventsLoop] at h
  | succ fuel ih =>
    intro st h
    simp only [Zulip.GetEventsLoop] at h ⊢
    cases hi : z.iteration env handler st with
    | next st1 =>
      simp only [hi] at h ⊢
      exact ih st1 h
    | returned st1 =>
      simp only [hi]
      obtain ⟨bytes, res, _, _, _, hst, ht⟩ := iteration_returned z env handler st st1 hi
      obtain ⟨e, _, hl⟩ := eventLoop_stopped_last handler res.Events _ _ hst
      exact ⟨e, by rw [ht, List.getLast?_append, hl]; rfl⟩
    | panicked e st1 => simp [hi] at h

/-- A batch in which no event that the loop reads is other than a heartbeat
brings no handler call and no `return`; without a nil element it is run to its
end. -/
theorem eventLoop_no_regular {σ : Type} (handler : EventListener σ)
    (events : List (Option EventResponse)) (h : regular (present events) = []) :
    ∀ (c : Int) (s : σ), (eventLoop handler events c s).exit ≠ .returned
      ∧ (eventLoop handler events c s).trace = []
      ∧ (none ∉ events → (eventLoop handler events c s).exit = .finished) := by
  induction events with
  | nil => intro c s; exact ⟨by simp [eventLoop], rfl, fun _ => rfl⟩
  | cons x xs ih =>
    intro c s
    cases x with
    | none => exact ⟨by simp [eventLoop], rfl, fun hn => by simp at hn⟩
    | some x =>
      simp only [present] at h
      by_cases hb : x.Type_ = "heartbeat"
      · rw [regular_cons_heartbeat x _ hb] at h
        simp only [eventLoop, hb, if_true]
        have := ih h (if x.ID > c then x.ID else c) s
        exact ⟨this.1, this.2.1,
          fun hn => this.2.2 (fun hm => hn (List.mem_cons_of_mem _ hm))⟩
      · rw [regular_cons_other x _ hb] at h
        simp at h

/-- C19: in every run in which `GetEvents` returns, the last action before the
return is a `HandleEvent` call that returned false; and no response content
makes it return: after a response with a result other than `"success"`, or a
success batch without an event that is not a heartbeat (the empty batch
included), the loop goes on to its next poll, and a batch in which a nil
element follows heartbeats only does not make it return either. -/
theorem stopped_only_by_handler {σ : Type} (z : Zulip) (env : Env)
    (handler : EventListener σ) :
    (∀ (fuel : Nat) (s : σ) (n : Nat),
      (z.GetEvents env handler fuel s n).outcome = .returned →
        ∃ e, (z.GetEvents env handler fuel s n).state.trace.getLast?
          = some (Action.handle e false))
      ∧ (∀ (fuel : Nat) (st : Poller σ),
        (z.GetEventsLoop env handler fuel st).outcome = .returned →
          ∃ e, (z.GetEventsLoop env handler fuel st).state.trace.getLast?
            = some (Action.handle e false))
      ∧ (∀ (st : Poller σ) (bytes : Bytes) (res : EventsResponse),
        (z.tryToGetEvents env (FormatInt st.last_event_id) st.n).res = .ok bytes →
        env.unmarshalEvents bytes = .ok res →
        (res.Result ≠ "success" ∨ (none ∉ res.Events ∧ regular (present res.Events) = [])) →
          (z.GetEventsLoop env handler 1 st).outcome = .polling
            ∧ dispatched (z.GetEventsLoop env handler 1 st).state.trace
                = dispatched st.trace)
      ∧ (∀ (st : Poller σ) (bytes : Bytes) (res : EventsResponse),
        (z.tryToGetEvents env (FormatInt st.last_event_id) st.n).res = .ok bytes →
        env.unmarshalEvents bytes = .ok res →
        (res.Result ≠ "success" ∨ regular (present res.Events) = []) →
          (z.GetEventsLoop env handler 1 st).outcome ≠ .returned
            ∧ dispatched (z.GetEventsLoop env handler 1 st).state.trace
                = dispatched st.trace) := by
  have hgen : ∀ (st : Poller σ) (bytes : Bytes) (res : EventsResponse),
      (z.tryToGetEvents env (FormatInt st.last_event_id) st.n).res = .ok bytes →
      env.unmarshalEvents bytes = .ok res →
      (res.Result ≠ "success" ∨ regular (present res.Events) = []) →
        (z.GetEventsLoop env handler 1 st).outcome ≠ .returned
          ∧ dispatched (z.GetEventsLoop env handler 1 st).state.trace = dispatched st.trace
          ∧ (res.Result ≠ "success" ∨ none ∉ res.Events →
              (z.GetEventsLoop env handler 1 st).outcome = .polling) := by
    intro st bytes res hf hp hcase
    have hone := GetEventsLoop_one z env handler st
    by_cases hs : res.Result = "success"
    · have hreg : regular (present res.Events) = [] := by
        rcases hcase with h | h
        · exact absurd hs h
        · exact h
      have hl := eventLoop_no_regular handler res.Events hreg st.last_event_id st.handler
      have hit := iteration_success z env handler st bytes res hf hp hs
      rw [hit] at hone
      have hd : dispatched (z.afterBatch env handler st res.Events).trace
          = dispatched st.trace := by
        simp only [Zulip.afterBatch]
        rw [hl.2.1, dispatched_append, dispatched_append, dispatched_tryToGetEvents]
        simp [dispatched]
      cases hx : (eventLoop handler res.Events st.last_event_id st.handler).exit with
      | returned => exact absurd hx hl.1
      | finished =>
        rw [hx] at hone
        simp only at hone
        rw [hone]
        exact ⟨by simp, hd, fun _ => rfl⟩
      | panicked e =>
        rw [hx] at hone
        simp only at hone
        rw [hone]
        refine ⟨by simp, hd, ?_⟩
        intro hor
        rcases hor with h | h
        · exact absurd hs h
        · have := hl.2.2 h
          rw [hx] at this
          simp at this
    · have hit := iteration_not_success z env handler st bytes res hf hp hs
      rw [hit] at hone
      rw [hone]
      refine ⟨by simp, ?_, fun _ => rfl⟩
      simp only
      rw [dispatched_append, dispatched_tryToGetEvents, List.append_nil]
  refine ⟨fun fuel s n h => GetEventsLoop_returned_last z env handler fuel _ h,
    GetEventsLoop_returned_last z env handler, ?_, ?_⟩
  · intro st bytes res hf hp hcase
    have hcase2 : res.Result ≠ "success" ∨ regular (present res.Events) = [] := by
      rcases hcase with h | h
      · exact Or.inl h
      · exact Or.inr h.2
    have hg := hgen st bytes res hf hp hcase2
    refine ⟨hg.2.2 ?_, hg.2.1⟩
    rcases hcase with h | h
    · exact Or.inl h
    · exact Or.inr h.1
  · intro st bytes res hf hp hcase
    have hg := hgen st bytes res hf hp hcase
    exact ⟨hg.1, hg.2.1⟩

/-- C19 at a run that the handler stops at its second call, and at polls that
bring an error envelope, an empty batch and a batch of heartbeats only. -/
theorem stopped_only_by_handler_witness :
    (∃ e, (sampleZulip.GetEvents (sampleEnv [[6, 8, 1], [1], [5, 4, 0, 5, 0], sampleBatch])
          (stopAt 2) 9 0 0).state.trace.getLast? = some (Action.handle e false))
      ∧ (sampleZulip.GetEvents (sampleEnv [[6, 8, 1], [1], [5, 4, 0, 5, 0], sampleBatch])
          (stopAt 2) 9 0 0).state.trace.getLast?
        = some (Action.handle ⟨5, "message"⟩ false)
      ∧ (sampleZulip.GetEvents (sampleEnv [[6, 8, 1], [1], [5, 4, 0, 5, 0], sampleBatch])
          (stopAt 2) 3 0 0).outcome = .polling :=
  ⟨(stopped_only_by_handler sampleZulip
      (sampleEnv [[6, 8, 1], [1], [5, 4, 0, 5, 0], sampleBatch]) (stopAt 2)).1 9 0 0 (by decide),
    by decide, by decide⟩

/-- The loop over a batch makes no transport invocation. -/
theorem requests_eventLoop {σ : Type} (handler : EventListener σ)
    (events : List (Option EventResponse)) :
    ∀ (c : Int) (s : σ), requests (eventLoop handler events c s).trace = [] := by
  induction events with
  | nil => intro c s; rfl
  | cons x xs ih =>
    intro c s
    cases x with
    | none => rfl
    | some x =>
      simp only [eventLoop]
      by_cases hb : x.Type_ = "heartbeat"
      · simp only [hb, if_true]
        exact ih _ s
      · simp only [hb, if_false]
        cases hr : (handler.HandleEvent s x).1 with
        | false => simp [requests]
        | true =>
          simp only [Bool.not_true, Bool.false_eq_true, if_false, Batch.after]
          rw [requests_append, ih]
          simp [requests]

/-- The transport invocations of one iteration are those of its poll. -/
theorem GetEventsLoop_one_requests {σ : Type} (z : Zulip) (env : Env)
    (handler : EventListener σ) (st : Poller σ) :
    requests (z.GetEventsLoop env handler 1 st).state.trace
      = requests st.trace
        ++ requests (z.tryToGetEvents env (FormatInt st.last_event_id) st.n).trace := by
  rw [GetEventsLoop_one]
  cases hf : (z.tryToGetEvents env (FormatInt st.last_event_id) st.n).res with
  | error e => simp [Zulip.iteration, hf, requests_append]
  | ok bytes =>
    cases hp : env.unmarshalEvents bytes with
    | error e => simp [Zulip.iteration, hf, hp, requests_append]
    | ok res =>
      by_cases hs : res.Result = "success"
      · rw [iteration_success z env handler st bytes res hf hp hs]
        have hq := requests_eventLoop handler res.Events st.last_event_id st.handler
        cases hst : (eventLoop handler res.Events st.last_event_id st.handler).exit with
        | finished => simp [Zulip.afterBatch, requests_append, hq]
        | returned => simp [Zulip.afterBatch, requests_append, hq]
        | panicked e => simp [Zulip.afterBatch, requests_append, hq]
      · rw [iteration_not_success z env handler st bytes res hf hp hs]
        simp [requests_append]

/-- A run still polling after `k` iterations goes on with one iteration from
the state it has reached. -/
theorem GetEventsLoop_succ_polling {σ : Type} (z : Zulip) (env : Env)
    (handler : EventListener σ) :
    ∀ (k : Nat) (st : Poller σ), (z.GetEventsLoop env handler k st).outcome = .polling →
      z.GetEventsLoop env handler (k + 1) st
        = z.GetEventsLoop env handler 1 (z.GetEventsLoop env handler k st).state := by
  intro k
  induction k with
  | zero => intro st _; rfl
  | succ k ih =>
    intro st h
    cases hi : z.iteration env handler st with
    | next st1 =>
      have e1 : z.GetEventsLoop env handler (k + 1) st = z.GetEventsLoop env handler k st1 := by
        simp only [Zulip.GetEventsLoop, hi]
      have e2 : z.GetEventsLoop env handler (k + 1 + 1) st
          = z.GetEventsLoop env handler (k + 1) st1 := by
        rw [Zulip.GetEventsLoop]
        simp only [hi]
      rw [e1] at h
      rw [e2, e1]
      exact ih st1 h
    | returned st1 => simp [Zulip.GetEventsLoop, hi] at h
    | panicked e st1 => simp [Zulip.GetEventsLoop, hi] at h

/-- C11: the first poll of `GetEvents` sends `last_event_id` as the string `-1`,
and whenever the run is still polling after `k` iterations its next poll sends
the decimal string of the largest of -1 and the identifiers of all events,
heartbeats included, of the success batches received in those `k` iterations,
none of which held a nil element; every poll sends the stored queue identifier
as `queue_id`. -/
theorem poll_sends_cursor {σ : Type} (z : Zulip) (env : Env) (handler : EventListener σ)
    (s : σ) (n0 : Nat) :
    (∃ m, 1 ≤ m ∧ m ≤ 6
        ∧ requests (z.GetEvents env handler 1 s n0).state.trace
          = List.replicate m ("api/v1/events", "GET",
              [("queue_id", z.queueID), ("last_event_id", "-1")]))
      ∧ (∀ k, (z.GetEvents env handler k s n0).outcome = .polling →
        (z.seen env handler k ⟨-1, s, n0, []⟩
            = (present (z.seen env handler k ⟨-1, s, n0, []⟩)).map some)
          ∧ ∃ m, 1 ≤ m ∧ m ≤ 6
            ∧ requests (z.GetEvents env handler (k + 1) s n0).state.trace
              = requests (z.GetEvents env handler k s n0).state.trace
                ++ List.replicate m ("api/v1/events", "GET",
                    [("queue_id", z.queueID),
                      ("last_event_id",
                        FormatInt (maxID (-1)
                          (present (z.seen env handler k ⟨-1, s, n0, []⟩))))])) := by
  have hstep : ∀ k, (z.GetEvents env handler k s n0).outcome = .polling →
      ∃ m, 1 ≤ m ∧ m ≤ 6
        ∧ requests (z.GetEvents env handler (k + 1) s n0).state.trace
          = requests (z.GetEvents env handler k s n0).state.trace
            ++ List.replicate m ("api/v1/events", "GET",
                [("queue_id", z.queueID),
                  ("last_event_id",
                    FormatInt (maxID (-1)
                      (present (z.seen env handler k ⟨-1, s, n0, []⟩))))]) := by
    intro k hk
    simp only [Zulip.GetEvents] at hk ⊢
    have hcur := GetEventsLoop_cursor z env handler k ⟨-1, s, n0, []⟩ (by rw [hk]; simp)
    simp only at hcur
    rw [GetEventsLoop_succ_polling z env handler k _ hk, GetEventsLoop_one_requests,
      (tryToGetEvents_trace z env _ _).1, requests_api, hcur]
    exact ⟨_, (api_invocations_bounds z env _ _ _ _).1,
      (api_invocations_bounds z env _ _ _ _).2, rfl⟩
  refine ⟨?_, fun k hk =>
    ⟨(map_present _ (GetEventsLoop_polling_seen z env handler k ⟨-1, s, n0, []⟩ hk)).symm,
      hstep k hk⟩⟩
  obtain ⟨m, h1, h2, h3⟩ := hstep 0 rfl
  refine ⟨m, h1, h2, ?_⟩
  rw [h3]
  have hf : FormatInt (maxID (-1) (present (z.seen env handler 0 ⟨-1, s, n0, []⟩))) = "-1" := by
    show FormatInt (-1) = "-1"
    decide
  rw [hf]
  simp [Zulip.GetEvents, Zulip.GetEventsLoop, requests]

/-- C11 at a run of two success batches: the polls send -1, then 9, then 12. -/
theorem poll_sends_cursor_witness :
    requests (sampleZulip.GetEvents (sampleEnv [sampleBatch, [5, 12, 0, 2, 1], [1]]) (stopAt 0)
        3 0 0).state.trace
      = [("api/v1/events", "GET", [("queue_id", "q1"), ("last_event_id", "-1")]),
          ("api/v1/events", "GET", [("queue_id", "q1"), ("last_event_id", "9")]),
          ("api/v1/events", "GET", [("queue_id", "q1"), ("last_event_id", "12")])]
      ∧ ∃ m, 1 ≤ m ∧ m ≤ 6
        ∧ requests (sampleZulip.GetEvents (sampleEnv [sampleBatch, [5, 12, 0, 2, 1], [1]])
            (stopAt 0) (2 + 1) 0 0).state.trace
          = requests (sampleZulip.GetEvents (sampleEnv [sampleBatch, [5, 12, 0, 2, 1], [1]])
              (stopAt 0) 2 0 0).state.trace
            ++ List.replicate m ("api/v1/events", "GET",
                [("queue_id", sampleZulip.queueID),
                  ("last_event_id",
                    FormatInt (maxID (-1)
                      (present
                        (sampleZulip.seen (sampleEnv [sampleBatch, [5, 12, 0, 2, 1], [1]])
                          (stopAt 0) 2 ⟨-1, 0, 0, []⟩))))]) :=
  ⟨by decide,
    ((poll_sends_cursor sampleZulip (sampleEnv [sampleBatch, [5, 12, 0, 2, 1], [1]]) (stopAt 0)
      0 0).2 2 (by decide)).2⟩

end GoZulip
